import Mathlib

/-!
Shallow embedding of the Cidade Dorme game engine
(src/core/action_resolver.py, src/cogs/game_flow.py, src/cogs/actions.py).

Python dictionaries are modelled as insertion-ordered association lists,
`None`-able values as `Option`, and Python truthiness of optional integer
ids (`if x:`) as `optTruthy` (an id is truthy when present and nonzero).
Randomness (`random.choice`, `random.shuffle`) is modelled by an explicit
oracle record.  Discord I/O (messages, mute, sounds) has no game-state
effect and is omitted.  A raised Python exception (e.g. a `KeyError` on a
missing dict key) is modelled by returning `none` from the affected
function.
-/

namespace CidadeDorme

abbrev PlayerId := Nat

inductive Faction
  | cidade
  | viloes
  | solo
deriving DecidableEq

/-- Roles of the game.  The roles package (roles/cidade_roles.py,
roles/viloes_roles.py, roles/solo_roles.py) is referenced by the sources;
the faction of each role is determined by the module it is imported from. -/
inductive Role
  | prefeito
  | guardaCostas
  | anjo
  | medium
  | xerife
  | detetive
  | videnteDeAura
  | cidadaoComum
  | assassinoAlfa
  | assassinoSimples
  | assassinoJunior
  | cumplice
  | palhaco
  | bruxo
  | cupido
  | corruptor
  | fofoqueiro
  | praga
  | cacadorDeCabecas
deriving DecidableEq

/-- Modelled from the spec: the faction tag of each role, per the module
names of the roles package (absent from src/): roles.cidade_roles,
roles.viloes_roles, roles.solo_roles. -/
def Role.faction : Role → Faction
  | .prefeito => .cidade
  | .guardaCostas => .cidade
  | .anjo => .cidade
  | .medium => .cidade
  | .xerife => .cidade
  | .detetive => .cidade
  | .videnteDeAura => .cidade
  | .cidadaoComum => .cidade
  | .assassinoAlfa => .viloes
  | .assassinoSimples => .viloes
  | .assassinoJunior => .viloes
  | .cumplice => .viloes
  | .palhaco => .solo
  | .bruxo => .solo
  | .cupido => .solo
  | .corruptor => .solo
  | .fofoqueiro => .solo
  | .praga => .solo
  | .cacadorDeCabecas => .solo

inductive Phase
  | preparing
  | night
  | dayDiscussion
  | dayVoting
  | finished
deriving DecidableEq

/-- Night action kinds (the "action" string of a registered night action,
cogs/actions.py record_night_action). -/
inductive ActKind
  | protect
  | corrupt
  | confuse
  | possess
  | cupidMatch
  | villainVote
  | witchKill
  | witchRevive
  | angelRevive
  | markDetective
  | haunt
  | plagueExterminate
  | otherAct
deriving DecidableEq

/-- One entry of game.night_actions.  record_night_action always stores the
keys action, target_id (value possibly None), role and priority; the extra
keyword keys (lover1_id, lover2_id, target1_id, target2_id) are optional.
The key player_id is read by the resolver for haunt and plague_exterminate
entries but is never written by record_night_action, so it is kept optional
(a subscript on a missing key raises, modelled as `none` by the caller). -/
structure NightAction where
  act : ActKind
  target : Option PlayerId := none
  role : Role
  priority : Nat := 50
  lover1 : Option PlayerId := none
  lover2 : Option PlayerId := none
  target1 : Option PlayerId := none
  target2 : Option PlayerId := none
  playerIdField : Option PlayerId := none
deriving DecidableEq

structure PlayerState where
  display_name : String := ""
  role : Role
  is_alive : Bool := true
  is_ghost : Bool := false
  ghost_master_id : Option PlayerId := none
  is_confused : Bool := false
  is_corrupted : Bool := false
  protected_by : Option PlayerId := none
  bodyguard_hits_survived : Nat := 0
  possession_points : Nat := 0
  is_infected : Bool := false
deriving DecidableEq

/-- Death reason tags used by the resolver and game flow. -/
inductive DeathReason
  | villain
  | witch
  | bodyguardSacrifice
  | killedByPlague
  | lynched
  | heartbreak
  | killedByJuniorCurse
  | shotBySheriff
deriving DecidableEq

/-- The responsible party recorded with a death: a single id (witch kill,
sacrifice context, plague) or the list of villain voters. -/
inductive KillerRef
  | one (pid : PlayerId)
  | many (pids : List PlayerId)
deriving DecidableEq

abbrev DeathRec := PlayerId × DeathReason × KillerRef

/-- A gathered kill attempt (core/action_resolver.py _gather_kill_attempts):
either a witch kill by one player or the aggregated villain vote. -/
inductive Attempt
  | witchAtt (pid : PlayerId)
  | villainAtt (voters : List PlayerId)
deriving DecidableEq

/-- The mutable match state (GameInstance).  cogs/game_instance.py is not
under src/; its fields are reconstructed from their uses in
core/action_resolver.py, cogs/game_flow.py and cogs/actions.py and from the
data model of the spec.  `active` models presence in the game manager
registry. -/
structure Game where
  players : List (PlayerId × PlayerState) := []
  night_actions : List (PlayerId × NightAction) := []
  day_votes : List (PlayerId × PlayerId) := []
  day_skip_votes : List PlayerId := []
  current_phase : Phase := .preparing
  current_night : Nat := 0
  skip_villain_kill : Bool := false
  witch_potion_used : Bool := false
  angel_revive_used : Bool := false
  plague_exterminate_used : Bool := false
  medium_talk_used : Bool := false
  decreto_active : Bool := false
  fraud_active : Bool := false
  prefeito_saved_once : Bool := false
  pending_resolution : Bool := false
  lovers : Option (PlayerId × PlayerId) := none
  headhunter_info : Option (PlayerId × PlayerId) := none
  plague_patient_zero_id : Option PlayerId := none
  plague_player_id : Option PlayerId := none
  junior_marked_target_id : Option PlayerId := none
  fofoqueiro_marked_target_id : Option PlayerId := none
  death_reasons : List (PlayerId × DeathReason) := []
  first_death_id : Option PlayerId := none
  active : Bool := true
deriving DecidableEq

/-- Python truthiness of an optional integer id: `if x:` is true when the
id is present and nonzero (Discord ids are positive, but the embedding
keeps the exact semantics). -/
def optTruthy (o : Option Nat) : Bool :=
  match o with
  | none => false
  | some n => decide (n ≠ 0)

/-- Association-list lookup (Python dict access by key, insertion order). -/
def pLookup {κ α : Type} [DecidableEq κ] (l : List (κ × α)) (k : κ) : Option α :=
  match l with
  | [] => none
  | (k₀, v) :: rest => if k₀ = k then some v else pLookup rest k

/-- Mutation of the value stored under a key (Python mutates the object in
place; with unique keys this is a point update). -/
def pUpdate {κ α : Type} [DecidableEq κ] (l : List (κ × α)) (k : κ) (f : α → α) :
    List (κ × α) :=
  l.map (fun p => if p.1 = k then (p.1, f p.2) else p)

/-- game.get_player_state_by_id. -/
def Game.getPlayerStateById (g : Game) (pid : PlayerId) : Option PlayerState :=
  pLookup g.players pid

/-- Lookup through an optional id (get_player_state_by_id(None) is None). -/
def Game.getPlayerStateByOptId (g : Game) (o : Option PlayerId) : Option PlayerState :=
  match o with
  | none => none
  | some pid => g.getPlayerStateById pid

/-- game.get_player_by_id succeeds exactly when the id belongs to a player. -/
def Game.hasPlayer (g : Game) (pid : PlayerId) : Bool :=
  (g.getPlayerStateById pid).isSome

/-- game.get_alive_players_states. -/
def Game.alivePlayersStates (g : Game) : List (PlayerId × PlayerState) :=
  g.players.filter (fun p => p.2.is_alive)

def Game.aliveIds (g : Game) : List PlayerId :=
  g.alivePlayersStates.map (fun p => p.1)

def Game.deadIds (g : Game) : List PlayerId :=
  (g.players.filter (fun p => !p.2.is_alive)).map (fun p => p.1)

/-- len(game.get_alive_players()). -/
def Game.aliveCount (g : Game) : Nat :=
  g.alivePlayersStates.length

def Game.setPlayer (g : Game) (pid : PlayerId) (f : PlayerState → PlayerState) : Game :=
  { g with players := pUpdate g.players pid f }

/-- Stable insertion sort by priority ascending, modelling
sorted(game.night_actions.items(), key=lambda item: item[1]["priority"]). -/
def insertByPriority (e : PlayerId × NightAction) :
    List (PlayerId × NightAction) → List (PlayerId × NightAction)
  | [] => [e]
  | e₀ :: rest =>
    if e.2.priority < e₀.2.priority then e :: e₀ :: rest
    else e₀ :: insertByPriority e rest

def sortByPriority : List (PlayerId × NightAction) → List (PlayerId × NightAction)
  | [] => []
  | e :: rest => insertByPriority e (sortByPriority rest)

/-- Source of randomness handed to the engine (random.choice on a nonempty
list, random.shuffle of the day-vote targets). -/
structure RandOracle where
  choice : List PlayerId → PlayerId
  shuffle : List PlayerId → List PlayerId

/-- A deterministic oracle used for concrete evaluations. -/
def oracleSimple : RandOracle :=
  { choice := fun l => l.headD 0, shuffle := fun l => l }

def Game.isNight (g : Game) : Bool := g.current_phase = .night

/-- Dict assignment d[k] = v (update in place, or append in insertion order). -/
def pSet {κ α : Type} [DecidableEq κ] (l : List (κ × α)) (k : κ) (v : α) :
    List (κ × α) :=
  if (pLookup l k).isSome then pUpdate l k (fun _ => v) else l ++ [(k, v)]

/-- Weighted counter increment: d[k] = d.get(k, 0) + w. -/
def bump {κ : Type} [DecidableEq κ] (l : List (κ × Nat)) (k : κ) (w : Nat) : List (κ × Nat) :=
  if (pLookup l k).isSome then pUpdate l k (fun v => v + w) else l ++ [(k, w)]

/-- isinstance(role, tuple(allowed)): true when the role value is an
instance of one of the listed role classes.  The concrete role classes of
the repository have no subclass relations among themselves, so the check is
membership.  isinstance with an empty tuple is false for every value. -/
def isinstanceAny (r : Role) (allowed : List Role) : Bool :=
  allowed.any (fun c => r = c)

/-- cogs/actions.py find_player_by_name. -/
def findPlayerByName (g : Game) (name : String) (aliveOnly : Bool) : Option PlayerId :=
  let nameLower := name.toLower
  match g.players.find? (fun p =>
      p.2.display_name.toLower == nameLower && (!aliveOnly || p.2.is_alive)) with
  | some p => some p.1
  | none =>
    let ms := g.players.filter (fun p =>
      p.2.display_name.toLower.startsWith nameLower && (!aliveOnly || p.2.is_alive))
    match ms with
    | [m] => some m.1
    | _ => none

/-- cogs/actions.py check_game_phase (the predicate body, after game_check
found an active game). -/
def checkGamePhaseP (allowed : List Phase) (g : Game) : Bool :=
  g.current_phase ∈ allowed

/-- cogs/actions.py check_player_state.  `dmExempt` is whether the command
name is in the disparar/sabotar/fraudar list, `isAssombrar` whether it is
the assombrar command; both are false for votar and pular. -/
def checkPlayerStateP (g : Game) (caller : PlayerId) (isDM : Bool)
    (requiresAlive requiresDM dmExempt isAssombrar : Bool) : Bool :=
  if requiresDM && !dmExempt && !isDM then false
  else
    match g.getPlayerStateById caller with
    | none => false
    | some st =>
      if requiresAlive && !st.is_alive && !isAssombrar then false else true

/-- cogs/actions.py check_role: isinstance(player_state.role, tuple(allowed_roles))
followed by the night-corruption gate. -/
def checkRoleP (g : Game) (caller : PlayerId) (allowed : List Role) : Bool :=
  match g.getPlayerStateById caller with
  | none => false
  | some st =>
    if !isinstanceAny st.role allowed then false
    else if g.isNight && st.is_corrupted then false
    else true

/-- GameFlowCog.end_day_voting as invoked from the pular command body.  The
call is unreachable through pular because the role check rejects every
caller (proved below), so its effects on the state are not modelled. -/
def endDayVotingElided (g : Game) : Game := g

/-- The votar slash command (cogs/actions.py, lines 446-457): the decorator
checks run first; if any fails the body never runs and the state is
untouched.  The allowed-roles list of its check_role decorator is empty. -/
def votarCmd (g : Game) (caller : PlayerId) (isDM : Bool) (jogador : String) : Game :=
  if !g.active then g
  else if !checkGamePhaseP [.dayVoting] g then g
  else if !checkPlayerStateP g caller isDM true true false false then g
  else if !checkRoleP g caller [] then g
  else
    match findPlayerByName g jogador true with
    | none => g
    | some tid =>
      let g₁ := { g with day_skip_votes := g.day_skip_votes.filter (fun x => x ≠ caller) }
      { g₁ with day_votes := pSet g₁.day_votes caller tid }

/-- The pular slash command (cogs/actions.py, lines 459-475), with the same
empty allowed-roles check_role decorator. -/
def pularCmd (g : Game) (caller : PlayerId) (isDM : Bool) : Game :=
  if !g.active then g
  else if !checkGamePhaseP [.dayVoting] g then g
  else if !checkPlayerStateP g caller isDM true true false false then g
  else if !checkRoleP g caller [] then g
  else
    let g₁ := { g with day_votes := g.day_votes.filter (fun p => p.1 ≠ caller) }
    let g₂ := { g₁ with day_skip_votes :=
      if g₁.day_skip_votes.contains caller then g₁.day_skip_votes
      else g₁.day_skip_votes ++ [caller] }
    if g₂.day_skip_votes.length ≥ g₂.aliveCount / 2 + 1 then endDayVotingElided g₂
    else g₂

/-! Game flow (cogs/game_flow.py): win-condition evaluation and death
processing. -/

inductive EndKind
  | headhunterWin
  | allDeadDraw
  | cityWin
  | seventhDayEval
  | villainParity
deriving DecidableEq

inductive GameEndOutcome
  | alreadyOver
  | ended (k : EndKind)
  | revivalNight
  | continues
deriving DecidableEq

/-- GameFlowCog.end_game: announcements, cards and ranking are I/O; the
state effects are the finished phase and removal from the game manager. -/
def endGameFx (g : Game) : Game :=
  { g with active := false, current_phase := .finished }

/-- GameFlowCog.start_night state effects: night phase, night counter. -/
def startNightFx (g : Game) : Game :=
  { g with current_phase := .night, current_night := g.current_night + 1 }

/-- The headhunter gate of check_game_end (lines 320-322): a victim was
passed, the contract exists, the victim is the contract target, the death
reason is lynched, and the hunter state lookup succeeds. -/
def headhunterFires (g : Game) (victim : Option PlayerId) : Bool :=
  match victim, g.headhunter_info with
  | some v, some (hunterId, targetId) =>
    decide (v = targetId) && decide (pLookup g.death_reasons v = some .lynched)
      && (g.getPlayerStateById hunterId).isSome
  | _, _ => false

/-- GameFlowCog.check_game_end (lines 318-347).  The seventhDayEval outcome
records the fall-through into check_seventh_day_win(is_resolution=True),
whose internal winner computation is outside the claims. -/
def checkGameEnd (g : Game) (victim : Option PlayerId) : GameEndOutcome × Game :=
  if !g.active then (.alreadyOver, g)
  else if headhunterFires g victim then (.ended .headhunterWin, endGameFx g)
  else
    let alive := g.alivePlayersStates
    if alive.isEmpty then (.ended .allDeadDraw, endGameFx g)
    else
      let villainsAlive := alive.filter (fun p => decide (p.2.role.faction = Faction.viloes))
      let prefeitoState := g.players.find? (fun p => decide (p.2.role = Role.prefeito))
      if villainsAlive.isEmpty then
        match prefeitoState with
        | some pf =>
          if pf.2.is_alive then (.ended .cityWin, endGameFx g)
          else
            let anjoPodeReviver := alive.any (fun p => decide (p.2.role = Role.anjo) && !g.angel_revive_used)
            let bruxoPodeReviver := alive.any (fun p => decide (p.2.role = Role.bruxo) && !g.witch_potion_used)
            if anjoPodeReviver || bruxoPodeReviver then
              (.revivalNight, startNightFx { g with pending_resolution := true })
            else (.ended .seventhDayEval, endGameFx g)
        | none => (.ended .seventhDayEval, endGameFx g)
      else
        let numVillains := villainsAlive.length
        let numNonVillains := alive.length - numVillains
        if numNonVillains ≤ numVillains then (.ended .villainParity, endGameFx g)
        else (.continues, g)

/-- The headhunter demotion and final win-check of process_death (lines
310-316), reached when no chained death takes over. -/
def processDeathAfterChains (g : Game) (targetId : PlayerId) (reason : DeathReason) : Game :=
  let g₄ :=
    match g.headhunter_info with
    | some (hunterId, hTarget) =>
      if hTarget = targetId then
        match g.getPlayerStateById hunterId with
        | some _ =>
          if reason ≠ .lynched then
            { g.setPlayer hunterId (fun st => { st with role := .cidadaoComum }) with
                headhunter_info := none }
          else g
        | none => g
      else g
    | none => g
  (checkGameEnd g₄ (some targetId)).2

/-- The chained-death dispatch of process_death (lines 296-316), run on the
state in which the target was already marked dead: the junior-assassin
avenger curse, the lover heartbreak, then the headhunter/win-check tail.
`tstRole` is the role of the dying target (read before the kill). -/
def processDeathChain (recur : Game → PlayerId → DeathReason → Game)
    (g₃ : Game) (targetId : PlayerId) (reason : DeathReason) (tstRole : Role) : Game :=
  if tstRole = Role.assassinoJunior ∧ optTruthy g₃.junior_marked_target_id
      ∧ (g₃.getPlayerStateByOptId g₃.junior_marked_target_id).isSome then
    recur g₃ (g₃.junior_marked_target_id.getD 0) .killedByJuniorCurse
  else
    match g₃.lovers with
    | some lv =>
      if targetId = lv.1 ∨ targetId = lv.2 then
        let otherId := if targetId = lv.2 then lv.1 else lv.2
        if (g₃.getPlayerStateById otherId).isSome then
          recur g₃ otherId .heartbreak
        else processDeathAfterChains g₃ targetId reason
      else processDeathAfterChains g₃ targetId reason
    | none => processDeathAfterChains g₃ targetId reason

/-- The state mutations of process_death before the chained effects (lines
292-295): record the death reason, mark the target dead (PlayerState.kill,
modelled from the spec, cogs/game_instance.py being absent from src/:
elimination sets is_alive to false without removing the record) and record
the first death of the match. -/
def killedState (g : Game) (targetId : PlayerId) (reason : DeathReason) : Game :=
  let g₁ := { g with death_reasons := pSet g.death_reasons targetId reason }
  let g₂ := g₁.setPlayer targetId (fun st => { st with is_alive := false })
  if g₂.first_death_id.isNone then { g₂ with first_death_id := some targetId } else g₂

/-- One unfolding of GameFlowCog.process_death (lines 288-316), with the
recursive chained-death calls abstracted as `recur`. -/
def processDeathCore (recur : Game → PlayerId → DeathReason → Game)
    (g : Game) (targetId : PlayerId) (reason : DeathReason) : Game :=
  match g.getPlayerStateById targetId with
  | none => g
  | some tst =>
    if !tst.is_alive then g
    else processDeathChain recur (killedState g targetId reason) targetId reason tst.role

/-- Fuel-indexed embedding of the recursive process_death; with fuel 0 the
call is truncated (returns the state unchanged).  Fuel equal to the number
of living players is proved sufficient below. -/
def processDeath : Nat → Game → PlayerId → DeathReason → Game
  | 0, g, _, _ => g
  | fuel + 1, g, targetId, reason => processDeathCore (processDeath fuel) g targetId reason

/-- A concrete two-player match used to instantiate the C6 theorem. -/
def gC6 : Game :=
  { players := [(1, { display_name := "p", role := .prefeito }),
                (2, { display_name := "q", role := .cidadaoComum })] }

/-- A concrete match with a full death chain (junior curse and lover
heartbreak) used to instantiate the C10 theorem. -/
def gW10 : Game :=
  { players := [(1, { display_name := "j", role := .assassinoJunior }),
                (2, { display_name := "a", role := .cidadaoComum }),
                (3, { display_name := "b", role := .cidadaoComum }),
                (4, { display_name := "p", role := .prefeito })],
    junior_marked_target_id := some 2,
    lovers := some (2, 3) }

/-! Night action resolution (core/action_resolver.py
resolve_night_actions and its helper stages). -/

/-- target_state := game.get_player_state_by_id(target); if it exists the
given mutation is applied to it. -/
def setPlayerIfExists (g : Game) (o : Option PlayerId) (f : PlayerState → PlayerState) : Game :=
  match o with
  | some t => if (g.getPlayerStateById t).isSome then g.setPlayer t f else g
  | none => g

/-- First loop of _apply_status_effects (lines 101-107): every confuse
action flags its target as confused, with no corruption or liveness check
on the confusing actor. -/
def confuseMarkPass (g : Game) (q : List (PlayerId × NightAction)) : Game :=
  q.foldl (fun g e =>
    match e.2.act with
    | .confuse => setPlayerIfExists g e.2.target (fun st => { st with is_confused := true })
    | _ => g) g

/-- The pool of alternate targets for a confused actor (line 114-115):
dead players for revival actions, alive players otherwise, excluding the
actor and the original target. -/
def redirectPool (g : Game) (pid : PlayerId) (a : NightAction) : List PlayerId :=
  let query := if a.act = ActKind.angelRevive ∨ a.act = ActKind.witchRevive
    then g.deadIds else g.aliveIds
  query.filter (fun x => !(decide (x = pid) || decide (some x = a.target)))

/-- The confusion redirect applied to one registered action (lines
109-122): a confused actor's action, whose target_id key is always present,
gets a new random target when the pool is nonempty; with an empty pool the
action is left untouched (the original target is kept). -/
def redirectEntry (O : RandOracle) (g : Game) (e : PlayerId × NightAction) :
    PlayerId × NightAction :=
  match g.getPlayerStateById e.1 with
  | some st =>
    if st.is_confused then
      let pool := redirectPool g e.1 e.2
      if pool.isEmpty then e
      else (e.1, { e.2 with target := some (O.choice pool) })
    else e
  | none => e

/-- Second loop of _apply_status_effects: the in-place redirect of the
registered night actions of confused actors. -/
def confusionRedirectPass (O : RandOracle) (g : Game) : Game :=
  { g with night_actions := g.night_actions.map (redirectEntry O g) }

/-- Third loop of _apply_status_effects (lines 124-137): corrupt flags its
target, protect (skipped for a corrupted protector) sets protected_by. -/
def corruptProtectPass (g : Game) (q : List (PlayerId × NightAction)) : Game :=
  q.foldl (fun g e =>
    match e.2.act with
    | .corrupt => setPlayerIfExists g e.2.target (fun st => { st with is_corrupted := true })
    | .protect =>
      match g.getPlayerStateById e.1 with
      | some pst =>
        if !pst.is_corrupted then
          setPlayerIfExists g e.2.target (fun st => { st with protected_by := some e.1 })
        else g
      | none => g
    | _ => g) g

/-- ActionResolver._apply_status_effects.  The mutated action dicts are
shared between game.night_actions and the sorted_actions list, so the
redirect is applied to both views. -/
def applyStatusEffects (O : RandOracle) (g : Game) (q : List (PlayerId × NightAction)) :
    Game × List (PlayerId × NightAction) :=
  let g₁ := confuseMarkPass g q
  let g₂ := confusionRedirectPass O g₁
  let q₂ := q.map (redirectEntry O g₁)
  (corruptProtectPass g₂ q₂, q₂)

/-- ActionResolver._resolve_unique_actions (lines 139-168): possession
(which suppresses the villain kill for the night and converts the target
into a simple assassin at three points) and the cupid match.  The lover
keys are always present on entries registered by the apaixonar command. -/
def uniqueStep (g : Game) (e : PlayerId × NightAction) : Game :=
  match g.getPlayerStateById e.1 with
  | none => g
  | some pst =>
    if pst.is_corrupted then g
    else
      match e.2.act with
      | .possess =>
        let g' := { g with skip_villain_kill := true }
        match e.2.target with
        | some t =>
          match g'.getPlayerStateById t with
          | some tst =>
            let g'' := g'.setPlayer t (fun st => { st with possession_points := st.possession_points + 1 })
            if tst.possession_points + 1 ≥ 3 then
              g''.setPlayer t (fun st => { st with role := .assassinoSimples })
            else g''
          | none => g'
        | none => g'
      | .cupidMatch =>
        match e.2.lover1, e.2.lover2 with
        | some l1, some l2 => { g with lovers := some (l1, l2) }
        | _, _ => g
      | _ => g

def resolveUniqueActions (g : Game) (q : List (PlayerId × NightAction)) : Game :=
  q.foldl uniqueStep g

/-- The weight of one villain vote (line 180): the role stored with the
action, an Alpha assassin, counts 2, anyone else 1. -/
def villainWeight (a : NightAction) : Nat :=
  if a.role = Role.assassinoAlfa then 2 else 1

/-- kill_attempts.setdefault(target, []).append(att). -/
def appendAttempt (ka : List (Option PlayerId × List Attempt)) (k : Option PlayerId)
    (att : Attempt) : List (Option PlayerId × List Attempt) :=
  if (pLookup ka k).isSome then pUpdate ka k (fun l => l ++ [att]) else ka ++ [(k, [att])]

/-- The entry kept by max(villain_votes, key=villain_votes.get): the fold
keeps the current entry unless a strictly greater value appears, so the
first key in dict order holding the maximal value wins. -/
def maxEntry (l : List (Option PlayerId × Nat)) : Option (Option PlayerId × Nat) :=
  match l with
  | [] => none
  | e :: rest => some (rest.foldl (fun best p => if p.2 > best.2 then p else best) e)

def maxKeyFirst (l : List (Option PlayerId × Nat)) : Option PlayerId :=
  match maxEntry l with
  | some e => e.1
  | none => none

def isVillainAtt : Attempt → Bool
  | .villainAtt _ => true
  | .witchAtt _ => false

def attReason : Attempt → DeathReason
  | .villainAtt _ => .villain
  | .witchAtt _ => .witch

def attKiller : Attempt → KillerRef
  | .villainAtt vs => .many vs
  | .witchAtt p => .one p

/-- One step of the loop of _gather_kill_attempts (lines 174-184) over
the weighted villain vote dict: dead/absent or corrupted actors are
skipped, a villain_vote bumps its target by the weight of the stored
role. -/
def villainVoteStep (g : Game) (vv : List (Option PlayerId × Nat))
    (e : PlayerId × NightAction) : List (Option PlayerId × Nat) :=
  match g.getPlayerStateById e.1 with
  | none => vv
  | some pst =>
    if pst.is_corrupted then vv
    else
      match e.2.act with
      | .villainVote => bump vv e.2.target (villainWeight e.2)
      | _ => vv

/-- The weighted villain vote dict built by _gather_kill_attempts
(lines 174-184), in dict insertion order. -/
def gatherVillainVotes (g : Game) (q : List (PlayerId × NightAction)) :
    List (Option PlayerId × Nat) :=
  q.foldl (villainVoteStep g) []

/-- The weight one queue entry contributes to the villain vote count of
target t: the stored role's weight when it is a villain_vote on t by a
present, non-corrupted actor, and 0 otherwise. -/
def villainVoteContrib (g : Game) (t : Option PlayerId) (e : PlayerId × NightAction) : Nat :=
  match g.getPlayerStateById e.1 with
  | none => 0
  | some pst =>
    if pst.is_corrupted then 0
    else if e.2.act = ActKind.villainVote ∧ e.2.target = t then villainWeight e.2 else 0

/-- ActionResolver._gather_kill_attempts (lines 170-191): witch kills are
collected individually (consuming the potion flag), villain votes are
aggregated to the single first-maximal target unless the possession flag
suppressed the villain kill; the recorded voters come from the full action
map, without the corruption filter. -/
def gatherStep (acc : List (Option PlayerId × List Attempt) × Game)
    (e : PlayerId × NightAction) : List (Option PlayerId × List Attempt) × Game :=
  match acc.2.getPlayerStateById e.1 with
  | none => acc
  | some pst =>
    if pst.is_corrupted then acc
    else
      match e.2.act with
      | .witchKill =>
        (appendAttempt acc.1 e.2.target (.witchAtt e.1),
         { acc.2 with witch_potion_used := true })
      | _ => acc

def gatherKillAttempts (g : Game) (q : List (PlayerId × NightAction)) :
    List (Option PlayerId × List Attempt) × Game :=
  let st := q.foldl gatherStep (([] : List (Option PlayerId × List Attempt)), g)
  let vv := gatherVillainVotes g q
  let ka := st.1
  let g' := st.2
  if !vv.isEmpty && !g'.skip_villain_kill then
    let t := maxKeyFirst vv
    let voters := (g'.night_actions.filter (fun p =>
      decide (p.2.act = ActKind.villainVote) && decide (p.2.target = t))).map Prod.fst
    (appendAttempt ka t (.villainAtt voters), g')
  else (ka, g')

/-- The attempts gathered for one target: kill_attempts.get(k, []). -/
def attemptsAt (ka : List (Option PlayerId × List Attempt)) (k : Option PlayerId) :
    List Attempt :=
  (pLookup ka k).getD []

/-- The villain-aggregate attempts present in a gathered kill-attempt map,
with their targets and voter lists. -/
def collectVillain (ka : List (Option PlayerId × List Attempt)) :
    List (Option PlayerId × List PlayerId) :=
  (ka.map (fun e => e.2.filterMap (fun att =>
    match att with
    | .villainAtt vs => some (e.1, vs)
    | .witchAtt _ => none))).flatten

/-- ActionResolver._resolve_deaths (lines 193-226).  Only the first
attempt on each target is inspected; a protected target survives a
villain-sourced attack (the protector absorbing the hit, dying on any
absorbed hit after the first); a Bodyguard target survives its own first
hit; otherwise the target dies with the attack source and responsible. -/
def deathStep (acc : List DeathRec × Game) (e : Option PlayerId × List Attempt) :
    List DeathRec × Game :=
  match e.1 with
    | none => acc
    | some tid =>
      match acc.2.getPlayerStateById tid with
      | none => acc
      | some tst =>
        if !tst.is_alive then acc
        else
          match e.2.head? with
          | none => acc
          | some att =>
            if optTruthy tst.protected_by && isVillainAtt att then
              match tst.protected_by with
              | some gid =>
                match acc.2.getPlayerStateById gid with
                | some pstate =>
                  let g' := acc.2.setPlayer gid (fun st =>
                    { st with bodyguard_hits_survived := st.bodyguard_hits_survived + 1 })
                  if pstate.bodyguard_hits_survived + 1 = 1 then (acc.1, g')
                  else (acc.1 ++ [(gid, .bodyguardSacrifice, .one tid)], g')
                | none => acc
              | none => acc
            else if tst.role = Role.guardaCostas then
              let g' := acc.2.setPlayer tid (fun st =>
                { st with bodyguard_hits_survived := st.bodyguard_hits_survived + 1 })
              if tst.bodyguard_hits_survived + 1 = 1 then (acc.1, g')
              else (acc.1 ++ [(tid, attReason att, attKiller att)], g')
            else (acc.1 ++ [(tid, attReason att, attKiller att)], acc.2)

def resolveDeaths (g : Game) (ka : List (Option PlayerId × List Attempt)) :
    List DeathRec × Game :=
  ka.foldl deathStep ([], g)

/-- Modelled from the spec: game.reset_flags_for_player
(cogs/game_instance.py absent from src/) resets the per-player transient
night modifiers of the revived player.  The ghost link is not cleared here:
the code reads target_state.ghost_master_id right after the call (line 249),
so clearing it there would make that medium-restore branch dead. -/
def resetFlagsForPlayer (g : Game) (pid : PlayerId) : Game :=
  g.setPlayer pid (fun st =>
    { st with is_confused := false, is_corrupted := false, protected_by := none })

/-- The state mutations of a successful revival (lines 241-252): revive the
target (PlayerState.revive, modelled from the spec: it sets is_alive to
true), consume the matching one-shot flag, reset the per-player flags, and
restore the medium power when the revived Prefeito was a linked ghost. -/
def reviveApply (g : Game) (e : PlayerId × NightAction) (tid : PlayerId) (tst : PlayerState) : Game :=
  let g₁ := g.setPlayer tid (fun st => { st with is_alive := true })
  let g₂ := if e.2.act = ActKind.witchRevive then { g₁ with witch_potion_used := true } else g₁
  let g₃ := if e.2.act = ActKind.angelRevive then { g₂ with angel_revive_used := true } else g₂
  let g₄ := resetFlagsForPlayer g₃ tid
  if tst.role = Role.prefeito && optTruthy tst.ghost_master_id then
    match tst.ghost_master_id with
    | some mid =>
      if (g₄.getPlayerStateById mid).isSome then { g₄ with medium_talk_used := false }
      else g₄
    | none => g₄
  else g₄

/-- The body of the _resolve_revivals loop (lines 231-253) for one entry:
a revival action by a non-corrupted actor revives a dead target that is not
in the current death batch, consumes the matching one-shot flag, resets the
per-player flags and possibly restores the medium power.
PlayerState.revive is modelled from the spec: it sets is_alive to true. -/
def revivalStep (deaths : List DeathRec) (acc : Game × List (PlayerId × PlayerId))
    (e : PlayerId × NightAction) : Game × List (PlayerId × PlayerId) :=
  let g := acc.1
  match g.getPlayerStateById e.1 with
  | none => acc
  | some pst =>
    if pst.is_corrupted then acc
    else if e.2.act = ActKind.angelRevive ∨ e.2.act = ActKind.witchRevive then
      match e.2.target with
      | none => acc
      | some tid =>
        match g.getPlayerStateById tid with
        | none => acc
        | some tst =>
          if !tst.is_alive && !(deaths.any (fun d => decide (d.1 = tid))) then
            (reviveApply g e tid tst, acc.2 ++ [(tid, e.1)])
          else acc
    else acc

/-- ActionResolver._resolve_revivals (lines 228-253). -/
def resolveRevivals (g : Game) (q : List (PlayerId × NightAction)) (deaths : List DeathRec) :
    Game × List (PlayerId × PlayerId) :=
  q.foldl (revivalStep deaths) (g, [])

/-- The patient-zero infection spread (lines 321-331): everyone who
targeted the living patient zero this night, and the patient zero's own
target, become infected (the Praga player itself excepted). -/
def infectPlayer (g : Game) (pid : PlayerId) : Game :=
  if ¬ (g.plague_player_id = some pid) then
    match g.getPlayerStateById pid with
    | some ps =>
      if !ps.is_infected then g.setPlayer pid (fun st => { st with is_infected := true }) else g
    | none => g
  else g

def patientZeroSpread (g : Game) : Game :=
  match g.plague_patient_zero_id with
  | some pz =>
    if pz ≠ 0 then
      match g.getPlayerStateById pz with
      | some pzs =>
        if pzs.is_alive then
          let g₁ := g.night_actions.foldl (fun gx e =>
            if e.2.target = some pz then infectPlayer gx e.1 else gx) g
          match pLookup g₁.night_actions pz with
          | some pza =>
            match pza.target with
            | some t => if t ≠ 0 then infectPlayer g₁ t else g₁
            | none => g₁
          | none => g₁
        else g
      | none => g
    else g
  | none => g

structure InfoPlagueOut where
  g : Game
  extraDeaths : List DeathRec := []
  plagueKillCount : Nat := 0
  gameOver : Bool := false
deriving DecidableEq

/-- The tail of the plague-extermination block (lines 316-319) followed by
the patient-zero spread, reached when the extermination did not win: with
any infected players alive they die of the plague, attributed to the
exterminator via the absent player_id key (which raises when missing). -/
def afterExterminate (g : Game) (pa : PlayerId × NightAction) (infected : List PlayerId) :
    Option InfoPlagueOut :=
  if infected.isEmpty then some { g := patientZeroSpread g }
  else
    match pa.2.playerIdField with
    | none => none
    | some praga =>
      some { g := patientZeroSpread g,
             extraDeaths := infected.map (fun i => (i, DeathReason.killedByPlague, KillerRef.one praga)),
             plagueKillCount := infected.length }

/-- The plague-extermination block of _resolve_information_and_plague
(lines 307-331): a one-shot trigger; with at least four living infected and
a resolvable exterminator member the match ends immediately in a plague
win, returning before the rest of the resolver. -/
def plaguePart (g : Game) (q : List (PlayerId × NightAction)) : Option InfoPlagueOut :=
  match q.find? (fun e => decide (e.2.act = ActKind.plagueExterminate)) with
  | some pa =>
    if !g.plague_exterminate_used then
      let g' := { g with plague_exterminate_used := true }
      let infected := (g'.players.filter (fun p => p.2.is_infected && p.2.is_alive)).map Prod.fst
      if infected.length ≥ 4 then
        match pa.2.playerIdField with
        | none => none
        | some praga =>
          if g'.hasPlayer praga then some { g := endGameFx g', gameOver := true }
          else afterExterminate g' pa infected
      else afterExterminate g' pa infected
    else some { g := patientZeroSpread g }
  | none => some { g := patientZeroSpread g }

/-- ActionResolver._resolve_information_and_plague (lines 255-331).  The
detective-mark and haunt reports are information only (no state change),
but the haunt block dereferences the absent player_id key of the haunt
entry and the haunt target, which raises. -/
def resolveInfoAndPlague (g : Game) (q : List (PlayerId × NightAction)) :
    Option InfoPlagueOut :=
  match q.find? (fun e => decide (e.2.act = ActKind.haunt)) with
  | some he =>
    match he.2.playerIdField with
    | none => none
    | some ghostId =>
      match g.getPlayerStateById ghostId with
      | some gs =>
        if optTruthy gs.ghost_master_id then
          if (match he.2.target with | some t => g.hasPlayer t | none => false) then
            plaguePart g q
          else none
        else plaguePart g q
      | none => plaguePart g q
  | none => plaguePart g q

structure NightResults where
  killedPlayers : List DeathRec := []
  revivedPlayers : List (PlayerId × PlayerId) := []
  plagueKillCount : Nat := 0
  gameOver : Bool := false
deriving DecidableEq

/-- Modelled from the spec: game.clear_nightly_states
(cogs/game_instance.py absent from src/) drains the night-action queue and
resets per-night state on exit of the resolver, per the contract that the
queue is fully cleared and the possession suppression applies only to the
night it was set on. -/
def clearNightlyStates (g : Game) : Game :=
  { g with night_actions := [],
           skip_villain_kill := false,
           players := g.players.map (fun p =>
             (p.1, { p.2 with is_confused := false, is_corrupted := false, protected_by := none })) }

/-- ActionResolver.resolve_night_actions (lines 50-97): the five-stage
pipeline over the priority-sorted action list.  A `none` result models a
raised exception (the night-visits indexing of a non-player, or the missing
player_id keys downstream); on a plague win the resolver returns before
clear_nightly_states, on a normal exit the queue is drained. -/
def resolveNightActions (O : RandOracle) (g : Game) : Option (NightResults × Game) :=
  let q := sortByPriority g.night_actions
  if q.any (fun e =>
      match e.2.target with
      | some t => decide (t ≠ 0) && (!(g.hasPlayer t) || !(g.hasPlayer e.1))
      | none => false) then none
  else
    let sq := applyStatusEffects O g q
    let g₂ := resolveUniqueActions sq.1 sq.2
    let ga := gatherKillAttempts g₂ sq.2
    let dr := resolveDeaths ga.2 ga.1
    let rv := resolveRevivals dr.2 sq.2 dr.1
    let finalDeaths := dr.1.filter (fun d => !(rv.2.any (fun r => decide (r.1 = d.1))))
    match resolveInfoAndPlague rv.1 sq.2 with
    | none => none
    | some out =>
      if out.gameOver then
        some ({ gameOver := true }, out.g)
      else
        some ({ killedPlayers := finalDeaths ++ out.extraDeaths,
                revivedPlayers := rv.2,
                plagueKillCount := out.plagueKillCount,
                gameOver := false },
              clearNightlyStates out.g)

/-- The two one-shot flags consumed during night resolution: the witch
potion and the angel revival. -/
def flagsOf (g : Game) : Bool × Bool :=
  (g.witch_potion_used, g.angel_revive_used)

/-- The sequence of game states at the boundaries of the five resolver
stages of resolve_night_actions, from the entry state to the returned one,
mirroring the sequential statements of lines 58-97. -/
def nightStageGames (O : RandOracle) (g : Game) : Option (List Game) :=
  let q := sortByPriority g.night_actions
  if q.any (fun e =>
      match e.2.target with
      | some t => decide (t ≠ 0) && (!(g.hasPlayer t) || !(g.hasPlayer e.1))
      | none => false) then none
  else
    let sq := applyStatusEffects O g q
    let g₂ := resolveUniqueActions sq.1 sq.2
    let ga := gatherKillAttempts g₂ sq.2
    let dr := resolveDeaths ga.2 ga.1
    let rv := resolveRevivals dr.2 sq.2 dr.1
    match resolveInfoAndPlague rv.1 sq.2 with
    | none => none
    | some out =>
      if out.gameOver then some [g, sq.1, g₂, ga.2, dr.2, rv.1, out.g]
      else some [g, sq.1, g₂, ga.2, dr.2, rv.1, out.g, clearNightlyStates out.g]

/-! Day vote resolution (core/action_resolver.py process_lynch). -/

/-- The weight of one day vote (process_lynch lines 371-376): 1, unless the
emergency decree is active, in which case a Prefeito vote counts 3 and any
other Town-faction vote counts 2. -/
def voteWeight (g : Game) (voterId : PlayerId) : Nat :=
  if g.decreto_active then
    match g.getPlayerStateById voterId with
    | some vs =>
      if vs.role = Role.prefeito then 3
      else if vs.role.faction = Faction.cidade then 2
      else 1
    | none => 1
  else 1

/-- The weighted tally of process_lynch (lines 369-377), built in dict
insertion order over the (possibly fraud-shuffled) vote map. -/
def voteCounts (g : Game) (votes : List (PlayerId × PlayerId)) : List (PlayerId × Nat) :=
  votes.foldl (fun acc p => bump acc p.2 (voteWeight g p.1)) []

/-- max(vote_counts.values()) if vote_counts else 0. -/
def maxTally (counts : List (PlayerId × Nat)) : Nat :=
  (counts.map (fun p => p.2)).foldl max 0

/-- vote_counts.get(k, 0). -/
def lookupCount {κ : Type} [DecidableEq κ] (l : List (κ × Nat)) (k : κ) : Nat :=
  (pLookup l k).getD 0

/-- The vote map actually tallied: with the fraud flag active the targets
are shuffled among the voters (lines 363-368). -/
def effectiveVotes (O : RandOracle) (g : Game) : List (PlayerId × PlayerId) :=
  if g.fraud_active then (g.day_votes.map Prod.fst).zip (O.shuffle (g.day_votes.map Prod.snd))
  else g.day_votes

structure LynchResult where
  lynched : Option PlayerId
  gameOver : Bool
deriving DecidableEq

/-- ActionResolver.process_lynch (lines 337-402).  A `none` result models a
raised exception: with the decree active the per-target report looks up
every tallied target (line 379), and the lynched candidate state is
dereferenced without a check (lines 388-389).  The recursive process_death
is run with fuel equal to the living count, which the termination theorem
proves sufficient for states with unique player ids. -/
def processLynch (O : RandOracle) (g : Game) : Option (LynchResult × Game) :=
  let majorityNeeded := g.aliveCount / 2 + 1
  if g.day_skip_votes.length ≥ majorityNeeded then
    some ({ lynched := none, gameOver := false }, g)
  else if g.day_votes.isEmpty then
    some ({ lynched := none, gameOver := false }, g)
  else
    let votes := effectiveVotes O g
    let counts := voteCounts g votes
    if g.decreto_active && counts.any (fun p => !(g.hasPlayer p.1)) then none
    else
      let maxVotes := maxTally counts
      if maxVotes < majorityNeeded then some ({ lynched := none, gameOver := false }, g)
      else
        match (counts.filter (fun p => p.2 = maxVotes)).map Prod.fst with
        | [c] =>
          match g.getPlayerStateById c with
          | none => none
          | some cst =>
            if cst.role = Role.prefeito && !g.prefeito_saved_once then
              some ({ lynched := none, gameOver := false }, { g with prefeito_saved_once := true })
            else
              let g₂ := processDeath g.aliveCount g c .lynched
              if cst.role = Role.palhaco then
                some ({ lynched := some c, gameOver := true }, endGameFx g₂)
              else
                some ({ lynched := some c, gameOver := false }, g₂)
        | _ => some ({ lynched := none, gameOver := false }, g)

/-- A concrete match where a lynch happens, instantiating the C5 theorem. -/
def gC5 : Game :=
  { players := [(1, { display_name := "a", role := .cidadaoComum }),
                (2, { display_name := "b", role := .cidadaoComum }),
                (3, { display_name := "c", role := .assassinoAlfa })],
    current_phase := .dayVoting,
    day_votes := [(1, 3), (2, 3)] }

/-- The concrete scenario D of the spec: emergency decree active, six
living players, four Town voters and the Prefeito vote for player 6, the
lone villain votes elsewhere. -/
def gC9 : Game :=
  { players := [(1, { display_name := "p", role := .prefeito }),
                (2, { display_name := "t1", role := .cidadaoComum }),
                (3, { display_name := "t2", role := .cidadaoComum }),
                (4, { display_name := "t3", role := .cidadaoComum }),
                (5, { display_name := "t4", role := .cidadaoComum }),
                (6, { display_name := "v", role := .assassinoAlfa })],
    current_phase := .dayVoting,
    decreto_active := true,
    day_votes := [(2, 6), (3, 6), (4, 6), (5, 6), (1, 6), (6, 1)] }

/-- C2 counterexample match: a confused actor (player 1) targets the only
other living player, so the redirect pool is empty. -/
def gC2x : Game :=
  { players := [(1, { display_name := "j", role := .assassinoJunior, is_confused := true }),
                (2, { display_name := "a", role := .cidadaoComum })],
    night_actions := [(1, { act := .villainVote, target := some 2,
                            role := .assassinoJunior, priority := 30 })] }

/-- C2 witness match: a confused actor with one legal alternate target. -/
def gC2w : Game :=
  { players := [(1, { display_name := "j", role := .assassinoJunior, is_confused := true }),
                (2, { display_name := "a", role := .cidadaoComum }),
                (3, { display_name := "b", role := .cidadaoComum })] }

/-- C4 witness match: player 1 protected by the bodyguard player 2 with no
previously absorbed hit. -/
def gC4w : Game :=
  { players := [(1, { display_name := "p", role := .prefeito, protected_by := some 2 }),
                (2, { display_name := "g", role := .guardaCostas })] }

/-- C7 witness match: a living Angel (player 1) and a dead citizen (2). -/
def gC7w : Game :=
  { players := [(1, { display_name := "an", role := .anjo }),
                (2, { display_name := "d", role := .cidadaoComum, is_alive := false })] }

/-- C8 witness match for the possession-suppression part. -/
def gC8a : Game :=
  { players := [(1, { display_name := "a1", role := .assassinoAlfa }),
                (2, { display_name := "c", role := .cidadaoComum }),
                (3, { display_name := "a2", role := .assassinoAlfa })] }

/-- The C8 suppression queue: the villain vote (priority 30) sorts before
the possession (priority 90). -/
def qC8a : List (PlayerId × NightAction) :=
  [(1, { act := .villainVote, target := some 2, role := .assassinoAlfa, priority := 30 }),
   (3, { act := .possess, target := some 2, role := .assassinoAlfa, priority := 90 })]

/-- C8 witness match for the aggregation part: one villain vote and one
independent witch kill. -/
def gC8b : Game :=
  { players := [(1, { display_name := "a1", role := .assassinoAlfa }),
                (2, { display_name := "c", role := .cidadaoComum }),
                (4, { display_name := "w", role := .bruxo })],
    night_actions := [(4, { act := .witchKill, target := some 1, role := .bruxo, priority := 25 }),
                      (1, { act := .villainVote, target := some 2, role := .assassinoAlfa, priority := 30 })] }

/-- C1 counterexample match: the Praga (player 1) exterminates with four
living infected players; the entry carries the player_id key. -/
def gC1x : Game :=
  { players := [(1, { display_name := "pr", role := .praga }),
                (2, { display_name := "i1", role := .cidadaoComum, is_infected := true }),
                (3, { display_name := "i2", role := .cidadaoComum, is_infected := true }),
                (4, { display_name := "i3", role := .cidadaoComum, is_infected := true }),
                (5, { display_name := "i4", role := .cidadaoComum, is_infected := true })],
    night_actions := [(1, { act := .plagueExterminate, role := .praga, priority := 35,
                            playerIdField := some 1 })] }

/-- C1 witness match: the bodyguard-sacrifice night of the repository's
own test suite (tests/test_action_resolver.py). -/
def gC1w : Game :=
  { players := [(1, { display_name := "pz", role := .prefeito }),
                (2, { display_name := "gg", role := .guardaCostas }),
                (3, { display_name := "aa", role := .assassinoAlfa }),
                (4, { display_name := "bb", role := .bruxo }),
                (5, { display_name := "dd", role := .detetive })],
    night_actions := [
      (2, { act := .protect, target := some 1, role := .guardaCostas, priority := 20 }),
      (3, { act := .villainVote, target := some 1, role := .assassinoAlfa, priority := 30 }),
      (4, { act := .witchKill, target := some 2, role := .bruxo, priority := 25 }),
      (5, { act := .markDetective, target1 := some 3, target2 := some 4,
            role := .detetive, priority := 60 })] }

/-! Theorems. -/

theorem checkRoleP_nil (g : Game) (c : PlayerId) : checkRoleP g c [] = false := by
  unfold checkRoleP
  cases g.getPlayerStateById c <;> simp [isinstanceAny]

/-- C3: for every caller in every game state, the day-voting commands votar
and pular are rejected before their bodies run: their check_role decorator
has an empty allowed-roles list and isinstance(role, tuple([])) is false
for every role value, so the state (in particular the day-vote map and the
day-skip set) is never modified through these commands. -/
theorem votar_pular_always_rejected (g : Game) (caller : PlayerId)
    (isDM : Bool) (jogador : String) :
    votarCmd g caller isDM jogador = g ∧ pularCmd g caller isDM = g := by
  constructor
  · unfold votarCmd
    simp [checkRoleP_nil]
  · unfold pularCmd
    simp [checkRoleP_nil]

/-- C6: with at least one living player, no living villains and no
headhunter win firing, check_game_end ends in a Town win when the Prefeito
is alive; when the Prefeito is dead and a living Angel (revival unused) or
living Witch (potion unused) exists it sets pending_resolution and starts
another night; with no revival available it falls through to the
final-tiebreak evaluator; and with living villains the match ends in a
Villain parity win exactly when living villains are at least the living
non-villains. -/
theorem check_game_end_cases (g : Game) (victim : Option PlayerId)
    (hact : g.active = true) (hhh : headhunterFires g victim = false)
    (hne : g.alivePlayersStates ≠ []) :
    ((g.alivePlayersStates.filter (fun p => decide (p.2.role.faction = Faction.viloes))) = [] →
      ∀ pf, g.players.find? (fun p => decide (p.2.role = Role.prefeito)) = some pf →
        (pf.2.is_alive = true → (checkGameEnd g victim).1 = .ended .cityWin)
        ∧ (pf.2.is_alive = false →
            (g.alivePlayersStates.any (fun p => decide (p.2.role = Role.anjo) && !g.angel_revive_used)
              || g.alivePlayersStates.any (fun p => decide (p.2.role = Role.bruxo) && !g.witch_potion_used)) = true →
            (checkGameEnd g victim).1 = .revivalNight
            ∧ (checkGameEnd g victim).2.pending_resolution = true
            ∧ (checkGameEnd g victim).2.current_phase = .night)
        ∧ (pf.2.is_alive = false →
            (g.alivePlayersStates.any (fun p => decide (p.2.role = Role.anjo) && !g.angel_revive_used)
              || g.alivePlayersStates.any (fun p => decide (p.2.role = Role.bruxo) && !g.witch_potion_used)) = false →
            (checkGameEnd g victim).1 = .ended .seventhDayEval))
    ∧ ((g.alivePlayersStates.filter (fun p => decide (p.2.role.faction = Faction.viloes))) ≠ [] →
        ((checkGameEnd g victim).1 = .ended .villainParity ↔
          g.alivePlayersStates.length
            - (g.alivePlayersStates.filter (fun p => decide (p.2.role.faction = Faction.viloes))).length
            ≤ (g.alivePlayersStates.filter (fun p => decide (p.2.role.faction = Faction.viloes))).length)
        ∧ ((g.alivePlayersStates.filter (fun p => decide (p.2.role.faction = Faction.viloes))).length
            < g.alivePlayersStates.length
              - (g.alivePlayersStates.filter (fun p => decide (p.2.role.faction = Faction.viloes))).length →
            checkGameEnd g victim = (.continues, g))) := by
  have hEmpty : g.alivePlayersStates.isEmpty = false := by
    cases h : g.alivePlayersStates with
    | nil => exact absurd h hne
    | cons a l => rfl
  constructor
  · intro hVill pf hpf
    have hVillE : (g.alivePlayersStates.filter
        (fun p => decide (p.2.role.faction = Faction.viloes))).isEmpty = true := by
      simp [hVill]
    refine ⟨?_, ?_, ?_⟩
    · intro halive
      simp only [checkGameEnd, hact, hhh, hEmpty, hVillE, hpf, halive]
      simp
    · intro hdead hrev
      simp only [checkGameEnd, hact, hhh, hEmpty, hVillE, hpf, hdead, hrev]
      simp [startNightFx]
    · intro hdead hrev
      simp only [checkGameEnd, hact, hhh, hEmpty, hVillE, hpf, hdead, hrev]
      simp
  · intro hVill
    have hVillE : (g.alivePlayersStates.filter
        (fun p => decide (p.2.role.faction = Faction.viloes))).isEmpty = false := by
      cases h : g.alivePlayersStates.filter (fun p => decide (p.2.role.faction = Faction.viloes)) with
      | nil => exact absurd h hVill
      | cons a l => rfl
    constructor
    · simp only [checkGameEnd, hact, hhh, hEmpty, hVillE]
      by_cases hc : g.alivePlayersStates.length
          - (g.alivePlayersStates.filter (fun p => decide (p.2.role.faction = Faction.viloes))).length
          ≤ (g.alivePlayersStates.filter (fun p => decide (p.2.role.faction = Faction.viloes))).length
      · rw [if_pos hc]
        simp [hc]
      · rw [if_neg hc]
        simp [hc]
    · intro hlt
      simp only [checkGameEnd, hact, hhh, hEmpty, hVillE]
      rw [if_neg (Nat.not_le.mpr hlt)]
      simp

/-- Witness for C6: the hypotheses of check_game_end_cases hold at gC6 and
the Prefeito-alive branch yields a Town win. -/
theorem check_game_end_cases_witness : (checkGameEnd gC6 none).1 = .ended .cityWin := by
  have h := check_game_end_cases gC6 none rfl rfl (by decide)
  exact (h.1 (by decide) (1, { display_name := "p", role := .prefeito }) (by decide)).1 rfl

theorem pLookup_mem {κ α : Type} [DecidableEq κ] (l : List (κ × α)) (k : κ) (v : α)
    (h : pLookup l k = some v) : (k, v) ∈ l := by
  induction l with
  | nil => simp [pLookup] at h
  | cons p rest ih =>
    obtain ⟨k₀, v₀⟩ := p
    by_cases hk : k₀ = k
    · subst hk
      simp [pLookup] at h
      subst h
      exact List.mem_cons_self _ _
    · simp [pLookup, hk] at h
      exact List.mem_cons_of_mem _ (ih h)

theorem pUpdate_keys {κ α : Type} [DecidableEq κ] (l : List (κ × α)) (k : κ) (f : α → α) :
    (pUpdate l k f).map Prod.fst = l.map Prod.fst := by
  induction l with
  | nil => rfl
  | cons p rest ih =>
    obtain ⟨k₀, v₀⟩ := p
    by_cases hk : k₀ = k <;> simp [pUpdate, hk] at ih ⊢ <;> exact ih

theorem pUpdate_of_not_mem {κ α : Type} [DecidableEq κ] (l : List (κ × α)) (k : κ) (f : α → α)
    (h : k ∉ l.map Prod.fst) : pUpdate l k f = l := by
  induction l with
  | nil => rfl
  | cons p rest ih =>
    obtain ⟨k₀, v₀⟩ := p
    simp at h
    simp [pUpdate, h.1, Ne.symm h.1] at ih ⊢
    exact ih h.2

theorem pUpdate_cons_hit {κ α : Type} [DecidableEq κ] (k₀ : κ) (v₀ : α) (rest : List (κ × α))
    (f : α → α) : pUpdate ((k₀, v₀) :: rest) k₀ f = (k₀, f v₀) :: pUpdate rest k₀ f := by
  simp [pUpdate]

theorem pUpdate_cons_miss {κ α : Type} [DecidableEq κ] (k₀ k : κ) (v₀ : α) (rest : List (κ × α))
    (f : α → α) (h : ¬ k₀ = k) :
    pUpdate ((k₀, v₀) :: rest) k f = (k₀, v₀) :: pUpdate rest k f := by
  simp [pUpdate, h]

theorem filterAlive_pUpdate_kill :
    ∀ (l : List (PlayerId × PlayerState)) (t : PlayerId) (st : PlayerState),
    (l.map Prod.fst).Nodup → pLookup l t = some st → st.is_alive = true →
    ((pUpdate l t (fun s => { s with is_alive := false })).filter (fun p => p.2.is_alive)).length + 1
      = (l.filter (fun p => p.2.is_alive)).length := by
  intro l
  induction l with
  | nil => intro t st _ h; simp [pLookup] at h
  | cons p rest ih =>
    intro t st hnd hl ha
    obtain ⟨k₀, v₀⟩ := p
    simp at hnd
    by_cases hk : k₀ = t
    · subst hk
      simp [pLookup] at hl
      subst hl
      have hupd : pUpdate rest k₀ (fun s => { s with is_alive := false }) = rest :=
        pUpdate_of_not_mem rest k₀ _ (by
          intro hmem
          obtain ⟨q, hq, hq1⟩ := List.mem_map.mp hmem
          have h' : (k₀, q.2) ∈ rest := by
            rw [← hq1]
            simpa using hq
          exact hnd.1 q.2 h')
      rw [pUpdate_cons_hit, hupd]
      simp [ha]
    · simp [pLookup, hk] at hl
      have hih := ih t st hnd.2 hl ha
      rw [pUpdate_cons_miss k₀ t v₀ rest _ hk]
      cases hal : v₀.is_alive <;> simp [hal] <;> omega

theorem aliveCount_pos (g : Game) (t : PlayerId) (st : PlayerState)
    (hl : g.getPlayerStateById t = some st) (ha : st.is_alive = true) :
    1 ≤ g.aliveCount := by
  have hm : (t, st) ∈ g.players := pLookup_mem _ _ _ hl
  have hmf : (t, st) ∈ g.players.filter (fun p => p.2.is_alive) :=
    List.mem_filter.mpr ⟨hm, by simp [ha]⟩
  exact List.length_pos_of_mem hmf

theorem killedState_players (g : Game) (t : PlayerId) (r : DeathReason) :
    (killedState g t r).players = pUpdate g.players t (fun s => { s with is_alive := false }) := by
  simp only [killedState]
  split <;> rfl

theorem killedState_aliveCount (g : Game) (t : PlayerId) (r : DeathReason) (st : PlayerState)
    (hnd : (g.players.map Prod.fst).Nodup) (hl : g.getPlayerStateById t = some st)
    (ha : st.is_alive = true) :
    (killedState g t r).aliveCount + 1 = g.aliveCount := by
  unfold Game.aliveCount Game.alivePlayersStates
  rw [killedState_players]
  exact filterAlive_pUpdate_kill g.players t st hnd hl ha

theorem processDeathChain_congr (recur₁ recur₂ : Game → PlayerId → DeathReason → Game)
    (g₃ : Game) (t : PlayerId) (r : DeathReason) (ro : Role)
    (h : ∀ t' r', recur₁ g₃ t' r' = recur₂ g₃ t' r') :
    processDeathChain recur₁ g₃ t r ro = processDeathChain recur₂ g₃ t r ro := by
  unfold processDeathChain
  split
  · exact h _ _
  · split
    · dsimp only
      split
      · split <;> split <;> first | exact h _ _ | rfl
      · rfl
    · rfl

theorem processDeath_trivial (g : Game) (t : PlayerId) (r : DeathReason)
    (h : g.getPlayerStateById t = none ∨ ∃ st, g.getPlayerStateById t = some st ∧ st.is_alive = false) :
    ∀ fuel, processDeath fuel g t r = g := by
  intro fuel
  cases fuel with
  | zero => rfl
  | succ n =>
    show processDeathCore (processDeath n) g t r = g
    unfold processDeathCore
    rcases h with h | ⟨st, hst, hdead⟩
    · rw [h]
    · rw [hst]
      simp [hdead]

theorem processDeath_fuel_eq : ∀ (k : Nat) (g : Game) (t : PlayerId) (r : DeathReason) (f₁ f₂ : Nat),
    (g.players.map Prod.fst).Nodup → g.aliveCount ≤ k → g.aliveCount ≤ f₁ → g.aliveCount ≤ f₂ →
    processDeath f₁ g t r = processDeath f₂ g t r := by
  intro k
  induction k with
  | zero =>
    intro g t r f₁ f₂ hnd hk h1 h2
    by_cases htriv : g.getPlayerStateById t = none
        ∨ ∃ st, g.getPlayerStateById t = some st ∧ st.is_alive = false
    · rw [processDeath_trivial g t r htriv f₁, processDeath_trivial g t r htriv f₂]
    · exfalso
      push_neg at htriv
      obtain ⟨hne, hall⟩ := htriv
      obtain ⟨st, hst⟩ := Option.ne_none_iff_exists'.mp hne
      have halive : st.is_alive = true := by
        cases hb : st.is_alive with
        | false => exact absurd hb (hall st hst)
        | true => rfl
      have := aliveCount_pos g t st hst halive
      omega
  | succ k ih =>
    intro g t r f₁ f₂ hnd hk h1 h2
    by_cases htriv : g.getPlayerStateById t = none
        ∨ ∃ st, g.getPlayerStateById t = some st ∧ st.is_alive = false
    · rw [processDeath_trivial g t r htriv f₁, processDeath_trivial g t r htriv f₂]
    · push_neg at htriv
      obtain ⟨hne, hall⟩ := htriv
      obtain ⟨st, hst⟩ := Option.ne_none_iff_exists'.mp hne
      have halive : st.is_alive = true := by
        cases hb : st.is_alive with
        | false => exact absurd hb (hall st hst)
        | true => rfl
      have hpos : 1 ≤ g.aliveCount := aliveCount_pos g t st hst halive
      obtain ⟨a, rfl⟩ : ∃ a, f₁ = a + 1 := by
        cases f₁ with
        | zero => omega
        | succ a => exact ⟨a, rfl⟩
      obtain ⟨b, rfl⟩ : ∃ b, f₂ = b + 1 := by
        cases f₂ with
        | zero => omega
        | succ b => exact ⟨b, rfl⟩
      show processDeathCore (processDeath a) g t r = processDeathCore (processDeath b) g t r
      unfold processDeathCore
      rw [hst]
      simp only [halive, Bool.not_true, Bool.false_eq_true, if_false]
      have hcnt : (killedState g t r).aliveCount + 1 = g.aliveCount :=
        killedState_aliveCount g t r st hnd hst halive
      refine processDeathChain_congr _ _ _ _ _ _ (fun t' r' => ?_)
      refine ih (killedState g t r) t' r' a b ?_ (by omega) (by omega) (by omega)
      rw [killedState_players, pUpdate_keys]
      exact hnd

/-- C10: the recursive chained-death processing of process_death
terminates: a call whose target is absent or already dead returns the state
unchanged for every fuel, and (with unique player ids) any fuel of at least
the number of living players computes the same result as fuel exactly the
living count — every non-trivial call marks its target dead before
recursing, so the living count strictly decreases and the recursion depth
is bounded by the number of living players. -/
theorem process_death_terminates (g : Game) (t : PlayerId) (r : DeathReason) :
    ((g.getPlayerStateById t = none ∨ ∃ st, g.getPlayerStateById t = some st ∧ st.is_alive = false) →
      ∀ fuel, processDeath fuel g t r = g)
    ∧ ((g.players.map Prod.fst).Nodup →
      ∀ fuel, g.aliveCount ≤ fuel →
        processDeath fuel g t r = processDeath g.aliveCount g t r) :=
  ⟨fun h fuel => processDeath_trivial g t r h fuel,
   fun hnd fuel hf =>
     processDeath_fuel_eq g.aliveCount g t r fuel g.aliveCount hnd le_rfl hf le_rfl⟩

/-- Witness for C10: at a concrete match with a junior-curse and heartbreak
chain, fuel 99 computes the same as fuel equal to the living count, and a
call on a non-player id returns the state unchanged. -/
theorem process_death_terminates_witness :
    processDeath 99 gW10 1 DeathReason.lynched
      = processDeath gW10.aliveCount gW10 1 DeathReason.lynched
    ∧ processDeath 5 gW10 77 DeathReason.lynched = gW10 :=
  ⟨(process_death_terminates gW10 1 .lynched).2 (by decide) 99 (by decide),
   (process_death_terminates gW10 77 .lynched).1 (Or.inl (by decide)) 5⟩

theorem pLookup_append {κ α : Type} [DecidableEq κ] (l₁ l₂ : List (κ × α)) (k : κ) :
    pLookup (l₁ ++ l₂) k
      = match pLookup l₁ k with
        | some v => some v
        | none => pLookup l₂ k := by
  induction l₁ with
  | nil => simp [pLookup]
  | cons p rest ih =>
    obtain ⟨k₀, v₀⟩ := p
    by_cases hk : k₀ = k <;> simp [pLookup, hk, ih]

theorem pLookup_pUpdate_same {κ α : Type} [DecidableEq κ] (l : List (κ × α)) (k : κ) (f : α → α) :
    pLookup (pUpdate l k f) k = (pLookup l k).map f := by
  induction l with
  | nil => rfl
  | cons p rest ih =>
    obtain ⟨k₀, v₀⟩ := p
    by_cases hk : k₀ = k
    · subst hk
      rw [pUpdate_cons_hit]
      simp [pLookup]
    · rw [pUpdate_cons_miss _ _ _ _ _ hk]
      simp only [pLookup, hk, if_false]
      exact ih

theorem pLookup_pUpdate_ne {κ α : Type} [DecidableEq κ] (l : List (κ × α)) (k t : κ) (f : α → α)
    (h : ¬ t = k) : pLookup (pUpdate l k f) t = pLookup l t := by
  induction l with
  | nil => rfl
  | cons p rest ih =>
    obtain ⟨k₀, v₀⟩ := p
    by_cases hk₀ : k₀ = k
    · subst hk₀
      rw [pUpdate_cons_hit]
      have hkt : ¬ k₀ = t := fun hh => h (hh.symm)
      simp only [pLookup, hkt, if_false]
      exact ih
    · rw [pUpdate_cons_miss _ _ _ _ _ hk₀]
      by_cases hkt : k₀ = t
      · simp [pLookup, hkt]
      · simp only [pLookup, hkt, if_false]
        exact ih

theorem lookupCount_bump {κ : Type} [DecidableEq κ] (l : List (κ × Nat)) (k : κ) (w : Nat) (t : κ) :
    lookupCount (bump l k w) t = lookupCount l t + (if k = t then w else 0) := by
  unfold bump
  by_cases hs : (pLookup l k).isSome
  · rw [if_pos hs]
    by_cases hkt : k = t
    · subst hkt
      unfold lookupCount
      rw [pLookup_pUpdate_same]
      obtain ⟨v, hv⟩ := Option.isSome_iff_exists.mp hs
      rw [hv]
      simp
    · unfold lookupCount
      rw [pLookup_pUpdate_ne l k t _ (fun hh => hkt hh.symm)]
      simp [hkt]
  · rw [if_neg hs]
    unfold lookupCount
    rw [pLookup_append]
    have hnone : pLookup l k = none := Option.not_isSome_iff_eq_none.mp hs
    by_cases hkt : k = t
    · subst hkt
      rw [hnone]
      simp [pLookup]
    · cases ht : pLookup l t with
      | none => simp [ht, pLookup, hkt]
      | some v => simp [ht, hkt]

theorem voteCounts_foldl_sum (g : Game) (t : PlayerId) :
    ∀ (votes : List (PlayerId × PlayerId)) (acc : List (PlayerId × Nat)),
    lookupCount (votes.foldl (fun a p => bump a p.2 (voteWeight g p.1)) acc) t
      = lookupCount acc t
        + ((votes.filter (fun p => decide (p.2 = t))).map (fun p => voteWeight g p.1)).sum := by
  intro votes
  induction votes with
  | nil => intro acc; simp
  | cons v vs ih =>
    intro acc
    simp only [List.foldl_cons]
    rw [ih, lookupCount_bump]
    by_cases hv : v.2 = t <;> simp [hv] <;> omega

/-- C5: whenever process_lynch actually lynches a player y, the skip-vote
count was strictly below the majority of the living count ((living // 2) + 1),
the maximal weighted tally reached that majority, and y was the unique
holder of the maximal tally.  Contrapositively, no lynch occurs when skip
votes reach the majority, when the highest tally is below it, or when two
or more targets tie for the highest tally. -/
theorem process_lynch_majority_and_tie (O : RandOracle) (g : Game)
    (r : LynchResult) (g' : Game) (y : PlayerId)
    (h : processLynch O g = some (r, g')) (hy : r.lynched = some y) :
    g.day_skip_votes.length < g.aliveCount / 2 + 1
    ∧ g.aliveCount / 2 + 1 ≤ maxTally (voteCounts g (effectiveVotes O g))
    ∧ (voteCounts g (effectiveVotes O g)).filter
        (fun p => decide (p.2 = maxTally (voteCounts g (effectiveVotes O g))))
      = [(y, maxTally (voteCounts g (effectiveVotes O g)))] := by
  simp only [processLynch] at h
  by_cases h1 : g.day_skip_votes.length ≥ g.aliveCount / 2 + 1
  · rw [if_pos h1] at h
    simp only [Option.some.injEq, Prod.mk.injEq] at h
    obtain ⟨hr, -⟩ := h
    subst hr
    simp at hy
  · rw [if_neg h1] at h
    by_cases h2 : g.day_votes.isEmpty
    · rw [if_pos h2] at h
      simp only [Option.some.injEq, Prod.mk.injEq] at h
      obtain ⟨hr, -⟩ := h
      subst hr
      simp at hy
    · rw [if_neg h2] at h
      by_cases h3 : (g.decreto_active && (voteCounts g (effectiveVotes O g)).any
          (fun p => !(g.hasPlayer p.1))) = true
      · rw [if_pos h3] at h
        simp at h
      · rw [if_neg h3] at h
        by_cases h4 : maxTally (voteCounts g (effectiveVotes O g)) < g.aliveCount / 2 + 1
        · rw [if_pos h4] at h
          simp only [Option.some.injEq, Prod.mk.injEq] at h
          obtain ⟨hr, -⟩ := h
          subst hr
          simp at hy
        · rw [if_neg h4] at h
          refine ⟨by omega, Nat.not_lt.mp h4, ?_⟩
          rcases hfl : (voteCounts g (effectiveVotes O g)).filter
              (fun p => decide (p.2 = maxTally (voteCounts g (effectiveVotes O g)))) with
            _ | ⟨q, qs⟩
          · rw [hfl] at h
            simp only [List.map_nil] at h
            simp only [Option.some.injEq, Prod.mk.injEq] at h
            obtain ⟨hr, -⟩ := h
            subst hr
            simp at hy
          · rcases hqs : qs with _ | ⟨q2, qs2⟩
            · subst hqs
              rw [hfl] at h
              simp only [List.map_cons, List.map_nil] at h
              cases hlk : g.getPlayerStateById q.1 with
              | none => rw [hlk] at h; simp at h
              | some cst =>
                rw [hlk] at h
                dsimp only at h
                by_cases h5 : (cst.role = Role.prefeito && !g.prefeito_saved_once) = true
                · rw [if_pos h5] at h
                  simp only [Option.some.injEq, Prod.mk.injEq] at h
                  obtain ⟨hr, -⟩ := h
                  subst hr
                  simp at hy
                · rw [if_neg h5] at h
                  have hq2 : q.2 = maxTally (voteCounts g (effectiveVotes O g)) := by
                    have hqmem : q ∈ (voteCounts g (effectiveVotes O g)).filter
                        (fun p => decide (p.2 = maxTally (voteCounts g (effectiveVotes O g)))) := by
                      rw [hfl]; exact List.mem_cons_self _ _
                    have := (List.mem_filter.mp hqmem).2
                    simpa using this
                  have hq1 : q.1 = y := by
                    by_cases h6 : cst.role = Role.palhaco
                    · rw [if_pos h6] at h
                      simp only [Option.some.injEq, Prod.mk.injEq] at h
                      obtain ⟨hr, -⟩ := h
                      subst hr
                      simp at hy
                      exact hy
                    · rw [if_neg h6] at h
                      simp only [Option.some.injEq, Prod.mk.injEq] at h
                      obtain ⟨hr, -⟩ := h
                      subst hr
                      simp at hy
                      exact hy
                  rw [hfl, ← hq1, ← hq2]
            · subst hqs
              rw [hfl] at h
              simp only [List.map_cons] at h
              simp only [Option.some.injEq, Prod.mk.injEq] at h
              obtain ⟨hr, -⟩ := h
              subst hr
              simp at hy

/-- Witness for C5: at a concrete match the theorem applies with a real
lynch of player 3. -/
theorem process_lynch_majority_and_tie_witness :
    gC5.day_skip_votes.length < gC5.aliveCount / 2 + 1
    ∧ gC5.aliveCount / 2 + 1 ≤ maxTally (voteCounts gC5 (effectiveVotes oracleSimple gC5))
    ∧ (voteCounts gC5 (effectiveVotes oracleSimple gC5)).filter
        (fun p => decide (p.2 = maxTally (voteCounts gC5 (effectiveVotes oracleSimple gC5))))
      = [(3, maxTally (voteCounts gC5 (effectiveVotes oracleSimple gC5)))] := by
  obtain ⟨r, g', h1, h2⟩ :
      ∃ r g', processLynch oracleSimple gC5 = some (r, g') ∧ r.lynched = some 3 :=
    ⟨_, _, rfl, by decide⟩
  exact process_lynch_majority_and_tie oracleSimple gC5 r g' 3 h1 h2

/-- C9: the weighted tally of process_lynch credits every target with the
sum of its voters' weights (weight 1, or with the decree the Prefeito votes
3 and other Town voters 2); in the concrete decree scenario with six living
players, four Town voters and the Prefeito voting for player 6 against one
villain voting elsewhere, player 6 tallies 11 and is lynched. -/
theorem process_lynch_decree_weights :
    (∀ (g : Game) (votes : List (PlayerId × PlayerId)) (t : PlayerId),
      lookupCount (voteCounts g votes) t
        = ((votes.filter (fun p => decide (p.2 = t))).map (fun p => voteWeight g p.1)).sum)
    ∧ lookupCount (voteCounts gC9 gC9.day_votes) 6 = 11
    ∧ (processLynch oracleSimple gC9).map (fun p => p.1.lynched) = some (some 6) := by
  refine ⟨?_, by decide, by decide⟩
  intro g votes t
  unfold voteCounts
  rw [voteCounts_foldl_sum]
  simp [lookupCount, pLookup]

/-- C4: when the only kill attempt of the night is the villain-aggregate on
a living player P whose protected_by points at another existing player G,
P never appears in the death list; with no previously absorbed hit no one
dies from the attack, with any previously absorbed hit exactly G dies,
tagged bodyguard_sacrifice with P as the attributed context; and G's
absorbed-hit counter is incremented — in no case do both P and G die. -/
theorem resolve_deaths_protection (g : Game) (P gid : PlayerId) (voters : List PlayerId)
    (pst gstate : PlayerState)
    (hP : g.getPlayerStateById P = some pst) (halive : pst.is_alive = true)
    (hprot : pst.protected_by = some gid) (hgid0 : gid ≠ 0) (hgne : gid ≠ P)
    (hG : g.getPlayerStateById gid = some gstate) :
    (gstate.bodyguard_hits_survived = 0 →
      (resolveDeaths g [(some P, [Attempt.villainAtt voters])]).1 = [])
    ∧ (1 ≤ gstate.bodyguard_hits_survived →
      (resolveDeaths g [(some P, [Attempt.villainAtt voters])]).1
        = [(gid, DeathReason.bodyguardSacrifice, KillerRef.one P)])
    ∧ (∀ d ∈ (resolveDeaths g [(some P, [Attempt.villainAtt voters])]).1, d.1 ≠ P)
    ∧ (((resolveDeaths g [(some P, [Attempt.villainAtt voters])]).2.getPlayerStateById gid).map
        (fun st => st.bodyguard_hits_survived) = some (gstate.bodyguard_hits_survived + 1)) := by
  have htr : optTruthy (some gid) = true := by simp [optTruthy, hgid0]
  have hstep : resolveDeaths g [(some P, [Attempt.villainAtt voters])]
      = if gstate.bodyguard_hits_survived + 1 = 1
          then (([] : List DeathRec), g.setPlayer gid (fun st =>
            { st with bodyguard_hits_survived := st.bodyguard_hits_survived + 1 }))
          else ([(gid, DeathReason.bodyguardSacrifice, KillerRef.one P)],
            g.setPlayer gid (fun st =>
              { st with bodyguard_hits_survived := st.bodyguard_hits_survived + 1 })) := by
    simp only [resolveDeaths, deathStep, List.foldl_cons, List.foldl_nil, hP, halive, hprot, hG, htr,
      isVillainAtt, List.head?, Bool.not_true, Bool.false_eq_true, if_false,
      Bool.and_self, List.nil_append]
    split
    · rfl
    next hfalse => exact absurd trivial hfalse
  rw [hstep]
  by_cases h0 : gstate.bodyguard_hits_survived + 1 = 1
  · rw [if_pos h0]
    refine ⟨fun _ => rfl, fun h1 => by omega, by simp, ?_⟩
    show ((g.setPlayer gid _).getPlayerStateById gid).map _ = _
    unfold Game.setPlayer Game.getPlayerStateById
    rw [pLookup_pUpdate_same]
    unfold Game.getPlayerStateById at hG
    rw [hG]
    simp
  · rw [if_neg h0]
    refine ⟨fun hz => by omega, fun _ => rfl, ?_, ?_⟩
    · intro d hd
      simp at hd
      subst hd
      simpa using hgne
    · show ((g.setPlayer gid _).getPlayerStateById gid).map _ = _
      unfold Game.setPlayer Game.getPlayerStateById
      rw [pLookup_pUpdate_same]
      unfold Game.getPlayerStateById at hG
      rw [hG]
      simp

/-- Witness for C4: the concrete protected night at gC4w, first absorbed
hit: no one dies, the target survives, the counter becomes 1. -/
theorem resolve_deaths_protection_witness :
    (resolveDeaths gC4w [(some 1, [Attempt.villainAtt [3]])]).1 = []
    ∧ (∀ d ∈ (resolveDeaths gC4w [(some 1, [Attempt.villainAtt [3]])]).1, d.1 ≠ 1)
    ∧ (((resolveDeaths gC4w [(some 1, [Attempt.villainAtt [3]])]).2.getPlayerStateById 2).map
        (fun st => st.bodyguard_hits_survived) = some 1) := by
  have h := resolve_deaths_protection gC4w 1 2 [3]
    { display_name := "p", role := .prefeito, protected_by := some 2 }
    { display_name := "g", role := .guardaCostas }
    rfl rfl rfl (by decide) (by decide) rfl
  exact ⟨h.1 rfl, h.2.2.1, h.2.2.2⟩

/-- C2 counterexample: the claim says a confused actor's original declared
target is never honored and that with an empty alternate pool the action
becomes a targetless no-op.  At gC2x the pool is empty, the registered
action keeps its original target 2, and the whole night resolution kills
exactly that original target through the confused actor's own action. -/
theorem confusion_empty_pool_counterexample :
    redirectPool gC2x 1
      { act := .villainVote, target := some 2, role := .assassinoJunior, priority := 30 } = []
    ∧ (pLookup (confusionRedirectPass oracleSimple gC2x).night_actions 1).map
        (fun a => a.target) = some (some 2)
    ∧ (resolveNightActions oracleSimple gC2x).map (fun p => p.1.killedPlayers)
      = some [(2, DeathReason.villain, KillerRef.many [1])] := by
  decide

/-- C2 (amended): for a confused actor, when the pool of legal alternates
is nonempty the registered target is replaced by the oracle's pick from
that pool, and every pool member is a legal alternate (a dead player for
revival actions, a living player otherwise, never the actor or the original
target); when the pool is empty the action is left unchanged, keeping its
original target, rather than becoming targetless or failing. -/
theorem confusion_redirect_amended (O : RandOracle) (g : Game) (pid : PlayerId)
    (a : NightAction) (st : PlayerState)
    (hchoice : ∀ l : List PlayerId, l ≠ [] → O.choice l ∈ l)
    (hst : g.getPlayerStateById pid = some st) (hconf : st.is_confused = true) :
    (redirectPool g pid a = [] → redirectEntry O g (pid, a) = (pid, a))
    ∧ (redirectPool g pid a ≠ [] →
        (redirectEntry O g (pid, a)).2.target = some (O.choice (redirectPool g pid a))
        ∧ O.choice (redirectPool g pid a) ∈ redirectPool g pid a)
    ∧ (∀ x ∈ redirectPool g pid a,
        x ≠ pid ∧ some x ≠ a.target
        ∧ x ∈ (if a.act = ActKind.angelRevive ∨ a.act = ActKind.witchRevive
                then g.deadIds else g.aliveIds)) := by
  refine ⟨?_, ?_, ?_⟩
  · intro hpool
    simp [redirectEntry, hst, hconf, hpool]
  · intro hpool
    have hne : (redirectPool g pid a).isEmpty = false := by
      cases h : redirectPool g pid a with
      | nil => exact absurd h hpool
      | cons x xs => rfl
    refine ⟨?_, hchoice _ hpool⟩
    simp [redirectEntry, hst, hconf, hne]
  · intro x hx
    unfold redirectPool at hx
    obtain ⟨hq, hcond⟩ := List.mem_filter.mp hx
    simp at hcond
    exact ⟨hcond.1, hcond.2, hq⟩

/-- Witness for C2 (amended): at gC2w the confused actor's vote for player
2 is redirected to the oracle's pick from the pool, a member of the pool. -/
theorem confusion_redirect_amended_witness :
    (redirectEntry oracleSimple gC2w
      (1, { act := .villainVote, target := some 2, role := .assassinoJunior, priority := 30 })).2.target
      = some (oracleSimple.choice (redirectPool gC2w 1
          { act := .villainVote, target := some 2, role := .assassinoJunior, priority := 30 }))
    ∧ oracleSimple.choice (redirectPool gC2w 1
          { act := .villainVote, target := some 2, role := .assassinoJunior, priority := 30 })
        ∈ redirectPool gC2w 1
          { act := .villainVote, target := some 2, role := .assassinoJunior, priority := 30 } := by
  have hchoice : ∀ l : List PlayerId, l ≠ [] → oracleSimple.choice l ∈ l := by
    intro l hl
    cases l with
    | nil => exact absurd rfl hl
    | cons x xs => simp [oracleSimple]
  exact (confusion_redirect_amended oracleSimple gC2w 1
    { act := .villainVote, target := some 2, role := .assassinoJunior, priority := 30 }
    { display_name := "j", role := .assassinoJunior, is_confused := true }
    hchoice rfl rfl).2.1 (by decide)

theorem reviveApply_lookup_alive (g : Game) (e : PlayerId × NightAction) (tid : PlayerId)
    (tst tst₀ : PlayerState) (htl : g.getPlayerStateById tid = some tst₀) :
    ((reviveApply g e tid tst).getPlayerStateById tid).map (fun s => s.is_alive) = some true := by
  unfold reviveApply resetFlagsForPlayer Game.setPlayer Game.getPlayerStateById
  dsimp only
  unfold Game.getPlayerStateById at htl
  repeat' split
  all_goals simp [pLookup_pUpdate_same, htl]

theorem reviveApply_witch (g : Game) (e : PlayerId × NightAction) (tid : PlayerId)
    (tst : PlayerState) (hw : e.2.act = ActKind.witchRevive) :
    (reviveApply g e tid tst).witch_potion_used = true := by
  unfold reviveApply resetFlagsForPlayer Game.setPlayer
  dsimp only
  repeat' split
  all_goals simp [hw]

theorem reviveApply_angel (g : Game) (e : PlayerId × NightAction) (tid : PlayerId)
    (tst : PlayerState) (ha : e.2.act = ActKind.angelRevive) :
    (reviveApply g e tid tst).angel_revive_used = true := by
  unfold reviveApply resetFlagsForPlayer Game.setPlayer
  dsimp only
  repeat' split
  all_goals simp [ha]

theorem revivalStep_snd (deaths : List DeathRec) (acc : Game × List (PlayerId × PlayerId))
    (e : PlayerId × NightAction) :
    (revivalStep deaths acc e).2 = acc.2
    ∨ ∃ tid, (revivalStep deaths acc e).2 = acc.2 ++ [(tid, e.1)]
        ∧ deaths.any (fun d => decide (d.1 = tid)) = false := by
  cases hlk : acc.1.getPlayerStateById e.1 with
  | none => left; simp [revivalStep, hlk]
  | some pst =>
    by_cases hcor : pst.is_corrupted = true
    · left; simp [revivalStep, hlk, hcor]
    · by_cases hact : (e.2.act = ActKind.angelRevive ∨ e.2.act = ActKind.witchRevive)
      · cases htg : e.2.target with
        | none => left; simp [revivalStep, hlk, hcor, hact, htg]
        | some tid =>
          cases htl : acc.1.getPlayerStateById tid with
          | none => left; simp [revivalStep, hlk, hcor, hact, htg, htl]
          | some tst =>
            by_cases hcond : (!tst.is_alive && !(deaths.any (fun d => decide (d.1 = tid)))) = true
            · right
              refine ⟨tid, ?_, ?_⟩
              · simp [revivalStep, hlk, hcor, hact, htg, htl, hcond]
              · simp only [Bool.and_eq_true, Bool.not_eq_eq_eq_not, Bool.not_true] at hcond
                exact hcond.2
            · left; simp [revivalStep, hlk, hcor, hact, htg, htl, hcond]
      · left; simp [revivalStep, hlk, hcor, hact]

theorem resolveRevivals_not_dead (deaths : List DeathRec) :
    ∀ (q : List (PlayerId × NightAction)) (acc : Game × List (PlayerId × PlayerId)),
    (∀ tr ∈ acc.2, deaths.any (fun d => decide (d.1 = tr.1)) = false) →
    ∀ tr ∈ (q.foldl (revivalStep deaths) acc).2,
      deaths.any (fun d => decide (d.1 = tr.1)) = false := by
  intro q
  induction q with
  | nil => intro acc hacc tr htr; exact hacc tr htr
  | cons e rest ih =>
    intro acc hacc tr htr
    refine ih (revivalStep deaths acc e) ?_ tr htr
    intro tr' htr'
    rcases revivalStep_snd deaths acc e with h | ⟨tid, heq, hguard⟩
    · rw [h] at htr'
      exact hacc tr' htr'
    · rw [heq] at htr'
      rcases List.mem_append.mp htr' with h' | h'
      · exact hacc tr' h'
      · simp at h'
        rw [h']
        simpa using hguard

/-- C7: a revival action by a living, non-corrupted actor revives its
target exactly when the target is already dead and absent from the night's
death batch; a successful revival leaves the target alive and consumes the
matching one-shot flag; no player of the death batch is ever revived; and
the final death list (the batch filtered against the revived list) excludes
every revived player. -/
theorem revival_conditions (g : Game) (deaths : List DeathRec) (pid : PlayerId)
    (a : NightAction) (st : PlayerState) (t : PlayerId)
    (hst : g.getPlayerStateById pid = some st) (halive : st.is_alive = true)
    (hcor : st.is_corrupted = false)
    (hact : a.act = ActKind.angelRevive ∨ a.act = ActKind.witchRevive)
    (htgt : a.target = some t) :
    ((revivalStep deaths (g, []) (pid, a)).2 = [(t, pid)] ↔
      (∃ tst, g.getPlayerStateById t = some tst ∧ tst.is_alive = false)
      ∧ ∀ d ∈ deaths, d.1 ≠ t)
    ∧ ((revivalStep deaths (g, []) (pid, a)).2 = [(t, pid)] →
        ((revivalStep deaths (g, []) (pid, a)).1.getPlayerStateById t).map (fun s => s.is_alive)
            = some true
        ∧ (a.act = ActKind.witchRevive →
            (revivalStep deaths (g, []) (pid, a)).1.witch_potion_used = true)
        ∧ (a.act = ActKind.angelRevive →
            (revivalStep deaths (g, []) (pid, a)).1.angel_revive_used = true))
    ∧ (∀ (q : List (PlayerId × NightAction)) (g₀ : Game) (tr : PlayerId × PlayerId),
        tr ∈ (resolveRevivals g₀ q deaths).2 → ∀ d ∈ deaths, d.1 ≠ tr.1)
    ∧ (∀ (q : List (PlayerId × NightAction)) (g₀ : Game) (tr : PlayerId × PlayerId),
        tr ∈ (resolveRevivals g₀ q deaths).2 →
        ∀ d ∈ deaths.filter (fun d =>
            !((resolveRevivals g₀ q deaths).2.any (fun r => decide (r.1 = d.1)))),
          d.1 ≠ tr.1) := by
  have hinv : ∀ (q : List (PlayerId × NightAction)) (g₀ : Game) (tr : PlayerId × PlayerId),
      tr ∈ (resolveRevivals g₀ q deaths).2 → ∀ d ∈ deaths, d.1 ≠ tr.1 := by
    intro q g₀ tr htr d hd
    have h := resolveRevivals_not_dead deaths q (g₀, []) (by intro tr' htr'; simp at htr') tr htr
    intro hcontra
    rw [List.any_eq_false] at h
    exact absurd (by simpa using hcontra) (h d hd)
  refine ⟨?_, ?_, hinv, ?_⟩
  · cases htl : g.getPlayerStateById t with
    | none =>
      have hres : (revivalStep deaths (g, []) (pid, a)).2 = [] := by
        simp [revivalStep, hst, hcor, hact, htgt, htl]
      rw [hres]
      simp [htl]
    | some tst =>
      by_cases hcond : (!tst.is_alive && !(deaths.any (fun d => decide (d.1 = t)))) = true
      · have hres : (revivalStep deaths (g, []) (pid, a)).2 = [(t, pid)] := by
          simp [revivalStep, hst, hcor, hact, htgt, htl, hcond]
        rw [hres]
        simp only [Bool.and_eq_true, Bool.not_eq_eq_eq_not, Bool.not_true] at hcond
        obtain ⟨hdead, hany⟩ := hcond
        rw [List.any_eq_false] at hany
        constructor
        · intro _
          refine ⟨⟨tst, rfl, hdead⟩, ?_⟩
          intro d hd
          simpa using hany d hd
        · intro _
          rfl
      · have hres : (revivalStep deaths (g, []) (pid, a)).2 = [] := by
          simp only [revivalStep, hst, hcor, hact, htgt, htl]
          simp [hcor, hact, hcond]
        rw [hres]
        simp only [Bool.and_eq_true, Bool.not_eq_eq_eq_not, Bool.not_true] at hcond
        constructor
        · intro hcontra
          exact absurd hcontra (by simp)
        · rintro ⟨⟨tst', htst', hdead⟩, hnod⟩
          exfalso
          have heq : tst = tst' := by injection htst'
          apply hcond
          refine ⟨by rw [heq]; exact hdead, ?_⟩
          rw [List.any_eq_false]
          intro d hd
          simpa using hnod d hd
  · intro hrev
    cases htl : g.getPlayerStateById t with
    | none =>
      exfalso
      have hres : (revivalStep deaths (g, []) (pid, a)).2 = [] := by
        simp [revivalStep, hst, hcor, hact, htgt, htl]
      rw [hres] at hrev
      simp at hrev
    | some tst =>
      by_cases hcond : (!tst.is_alive && !(deaths.any (fun d => decide (d.1 = t)))) = true
      · have hres1 : (revivalStep deaths (g, []) (pid, a)).1 = reviveApply g (pid, a) t tst := by
          simp [revivalStep, hst, hcor, hact, htgt, htl, hcond]
        rw [hres1]
        exact ⟨reviveApply_lookup_alive g (pid, a) t tst tst htl,
          fun hw => reviveApply_witch g (pid, a) t tst hw,
          fun ha => reviveApply_angel g (pid, a) t tst ha⟩
      · exfalso
        have hres : (revivalStep deaths (g, []) (pid, a)).2 = [] := by
          simp only [revivalStep, hst, hcor, hact, htgt, htl]
          simp [hcor, hact, hcond]
        rw [hres] at hrev
        simp at hrev
  · intro q g₀ tr htr d hd
    exact hinv q g₀ tr htr d (List.mem_filter.mp hd).1

/-- Witness for C7: at gC7w the Angel revives the dead player 2, the flag
is consumed and the target ends alive. -/
theorem revival_conditions_witness :
    (revivalStep [] (gC7w, [])
        (1, { act := .angelRevive, target := some 2, role := .anjo, priority := 40 })).2 = [(2, 1)]
    ∧ ((revivalStep [] (gC7w, [])
        (1, { act := .angelRevive, target := some 2, role := .anjo, priority := 40 })).1.getPlayerStateById 2).map
          (fun s => s.is_alive) = some true
    ∧ (revivalStep [] (gC7w, [])
        (1, { act := .angelRevive, target := some 2, role := .anjo, priority := 40 })).1.angel_revive_used = true := by
  have h := revival_conditions gC7w [] 1
    { act := .angelRevive, target := some 2, role := .anjo, priority := 40 }
    { display_name := "an", role := .anjo } 2 rfl rfl rfl (Or.inl rfl) rfl
  have h2 : (revivalStep [] (gC7w, [])
      (1, { act := .angelRevive, target := some 2, role := .anjo, priority := 40 })).2 = [(2, 1)] :=
    h.1.mpr ⟨⟨{ display_name := "d", role := .cidadaoComum, is_alive := false }, rfl, rfl⟩,
      by intro d hd; simp at hd⟩
  exact ⟨h2, (h.2.1 h2).1, (h.2.1 h2).2.2 rfl⟩

theorem lookup_setPlayer_map {β : Type} (g : Game) (t x : PlayerId)
    (f : PlayerState → PlayerState) (proj : PlayerState → β)
    (hf : ∀ s, proj (f s) = proj s) :
    ((g.setPlayer t f).getPlayerStateById x).map proj = (g.getPlayerStateById x).map proj := by
  unfold Game.setPlayer Game.getPlayerStateById
  by_cases h : x = t
  · subst h
    rw [pLookup_pUpdate_same]
    cases pLookup g.players x <;> simp [hf]
  · rw [pLookup_pUpdate_ne _ _ _ _ h]

theorem pLookup_pUpdate_map {κ α β : Type} [DecidableEq κ] (l : List (κ × α)) (t x : κ)
    (f : α → α) (proj : α → β) (hf : ∀ s, proj (f s) = proj s) :
    (pLookup (pUpdate l t f) x).map proj = (pLookup l x).map proj := by
  by_cases h : x = t
  · subst h
    rw [pLookup_pUpdate_same]
    cases pLookup l x <;> simp [hf]
  · rw [pLookup_pUpdate_ne _ _ _ _ h]

theorem uniqueStep_lookup_corr (g : Game) (e : PlayerId × NightAction) (x : PlayerId) :
    ((uniqueStep g e).getPlayerStateById x).map (fun s => s.is_corrupted)
      = (g.getPlayerStateById x).map (fun s => s.is_corrupted) := by
  unfold uniqueStep Game.setPlayer Game.getPlayerStateById
  dsimp only
  repeat' split
  all_goals first
  | rfl
  | simp [pLookup_pUpdate_map]

theorem uniqueFold_lookup_corr :
    ∀ (q : List (PlayerId × NightAction)) (g : Game) (x : PlayerId),
    ((q.foldl uniqueStep g).getPlayerStateById x).map (fun s => s.is_corrupted)
      = (g.getPlayerStateById x).map (fun s => s.is_corrupted) := by
  intro q
  induction q with
  | nil => intro g x; rfl
  | cons e rest ih =>
    intro g x
    rw [List.foldl_cons, ih, uniqueStep_lookup_corr]

theorem uniqueStep_skip_mono (g : Game) (e : PlayerId × NightAction)
    (h : g.skip_villain_kill = true) : (uniqueStep g e).skip_villain_kill = true := by
  unfold uniqueStep Game.setPlayer
  dsimp only
  repeat' split
  all_goals simp [h]

theorem uniqueFold_skip_mono :
    ∀ (q : List (PlayerId × NightAction)) (g : Game),
    g.skip_villain_kill = true → (q.foldl uniqueStep g).skip_villain_kill = true := by
  intro q
  induction q with
  | nil => intro g h; exact h
  | cons e rest ih =>
    intro g h
    rw [List.foldl_cons]
    exact ih _ (uniqueStep_skip_mono g e h)

theorem uniqueStep_possess_skip (g : Game) (e : PlayerId × NightAction)
    (hposs : e.2.act = ActKind.possess)
    (hcorr : (g.getPlayerStateById e.1).map (fun s => s.is_corrupted) = some false) :
    (uniqueStep g e).skip_villain_kill = true := by
  obtain ⟨st, hst, hc⟩ : ∃ st, g.getPlayerStateById e.1 = some st ∧ st.is_corrupted = false := by
    cases h : g.getPlayerStateById e.1 with
    | none => rw [h] at hcorr; simp at hcorr
    | some st => rw [h] at hcorr; simp at hcorr; exact ⟨st, rfl, hcorr⟩
  unfold uniqueStep
  rw [hst]
  simp only [hc, Bool.false_eq_true, if_false, hposs]
  repeat' split
  all_goals simp [Game.setPlayer]

theorem gatherStep_snd_players (acc : List (Option PlayerId × List Attempt) × Game)
    (e : PlayerId × NightAction) : (gatherStep acc e).2.players = acc.2.players := by
  unfold gatherStep
  repeat' split
  all_goals rfl

theorem gatherStep_snd_skip (acc : List (Option PlayerId × List Attempt) × Game)
    (e : PlayerId × NightAction) :
    (gatherStep acc e).2.skip_villain_kill = acc.2.skip_villain_kill := by
  unfold gatherStep
  repeat' split
  all_goals rfl

theorem gatherStep_snd_nightActions (acc : List (Option PlayerId × List Attempt) × Game)
    (e : PlayerId × NightAction) :
    (gatherStep acc e).2.night_actions = acc.2.night_actions := by
  unfold gatherStep
  repeat' split
  all_goals rfl

theorem gatherFold_snd_players :
    ∀ (q : List (PlayerId × NightAction)) (acc : List (Option PlayerId × List Attempt) × Game),
    ((q.foldl gatherStep acc).2).players = acc.2.players := by
  intro q
  induction q with
  | nil => intro acc; rfl
  | cons e rest ih => intro acc; rw [List.foldl_cons, ih, gatherStep_snd_players]

theorem gatherFold_snd_skip :
    ∀ (q : List (PlayerId × NightAction)) (acc : List (Option PlayerId × List Attempt) × Game),
    ((q.foldl gatherStep acc).2).skip_villain_kill = acc.2.skip_villain_kill := by
  intro q
  induction q with
  | nil => intro acc; rfl
  | cons e rest ih => intro acc; rw [List.foldl_cons, ih, gatherStep_snd_skip]

theorem gatherFold_snd_nightActions :
    ∀ (q : List (PlayerId × NightAction)) (acc : List (Option PlayerId × List Attempt) × Game),
    ((q.foldl gatherStep acc).2).night_actions = acc.2.night_actions := by
  intro q
  induction q with
  | nil => intro acc; rfl
  | cons e rest ih => intro acc; rw [List.foldl_cons, ih, gatherStep_snd_nightActions]

theorem pLookup_isSome_of_mem {κ α : Type} [DecidableEq κ] :
    ∀ (l : List (κ × α)) (k : κ), k ∈ l.map Prod.fst → (pLookup l k).isSome := by
  intro l
  induction l with
  | nil => intro k h; simp at h
  | cons e rest ih =>
    intro k h
    by_cases hk : e.1 = k
    · obtain ⟨k₀, v₀⟩ := e
      simp only at hk
      subst hk
      simp [pLookup]
    · obtain ⟨k₀, v₀⟩ := e
      simp only at hk
      simp [pLookup, hk]
      apply ih
      simp at h
      rcases h with h | h
      · exact absurd h.symm hk
      · simpa using h

theorem pLookup_none_not_mem {κ α : Type} [DecidableEq κ] (l : List (κ × α)) (k : κ)
    (h : pLookup l k = none) : k ∉ l.map Prod.fst := by
  intro hmem
  have := pLookup_isSome_of_mem l k hmem
  rw [h] at this
  simp at this

theorem attemptsAt_appendAttempt_self (ka : List (Option PlayerId × List Attempt))
    (k : Option PlayerId) (att : Attempt) : att ∈ attemptsAt (appendAttempt ka k att) k := by
  unfold appendAttempt attemptsAt
  by_cases hs : (pLookup ka k).isSome
  · rw [if_pos hs, pLookup_pUpdate_same]
    obtain ⟨l, hl⟩ := Option.isSome_iff_exists.mp hs
    rw [hl]
    simp
  · rw [if_neg hs, pLookup_append]
    rw [Option.not_isSome_iff_eq_none.mp hs]
    simp [pLookup]

theorem attemptsAt_appendAttempt_mono (ka : List (Option PlayerId × List Attempt))
    (k k' : Option PlayerId) (att att' : Attempt) (h : att ∈ attemptsAt ka k) :
    att ∈ attemptsAt (appendAttempt ka k' att') k := by
  unfold attemptsAt at h
  unfold appendAttempt attemptsAt
  by_cases hs : (pLookup ka k').isSome
  · rw [if_pos hs]
    by_cases hk : k = k'
    · subst hk
      rw [pLookup_pUpdate_same]
      cases hpl : pLookup ka k with
      | none => rw [hpl] at h; simp at h
      | some l =>
        rw [hpl] at h
        simp at h ⊢
        exact Or.inl h
    · rw [pLookup_pUpdate_ne _ _ _ _ hk]
      exact h
  · rw [if_neg hs, pLookup_append]
    cases hpl : pLookup ka k with
    | none => rw [hpl] at h; simp at h
    | some l =>
      rw [hpl] at h
      simpa using h

theorem appendAttempt_keys_nodup (ka : List (Option PlayerId × List Attempt))
    (k : Option PlayerId) (att : Attempt) (h : (ka.map Prod.fst).Nodup) :
    ((appendAttempt ka k att).map Prod.fst).Nodup := by
  unfold appendAttempt
  by_cases hs : (pLookup ka k).isSome
  · rw [if_pos hs, pUpdate_keys]
    exact h
  · rw [if_neg hs, List.map_append]
    have hnm : k ∉ ka.map Prod.fst :=
      pLookup_none_not_mem ka k (Option.not_isSome_iff_eq_none.mp hs)
    simp [List.nodup_append, h, hnm]

theorem noVillain_appendAttempt_witch (ka : List (Option PlayerId × List Attempt))
    (k : Option PlayerId) (pid : PlayerId)
    (h : ∀ kl ∈ ka, ∀ att ∈ kl.2, isVillainAtt att = false) :
    ∀ kl ∈ appendAttempt ka k (.witchAtt pid), ∀ att ∈ kl.2, isVillainAtt att = false := by
  unfold appendAttempt
  by_cases hs : (pLookup ka k).isSome
  · rw [if_pos hs]
    intro kl hkl att hatt
    obtain ⟨p, hp, hpe⟩ := List.mem_map.mp hkl
    by_cases hpk : p.1 = k
    · rw [if_pos hpk] at hpe
      rw [← hpe] at hatt
      simp at hatt
      rcases hatt with hatt | hatt
      · exact h p hp att hatt
      · rw [hatt]; rfl
    · rw [if_neg hpk] at hpe
      rw [← hpe] at hatt
      exact h p hp att hatt
  · rw [if_neg hs]
    intro kl hkl att hatt
    rcases List.mem_append.mp hkl with hkl | hkl
    · exact h kl hkl att hatt
    · simp at hkl
      rw [hkl] at hatt
      simp at hatt
      rw [hatt]
      rfl

theorem collectVillain_append (l₁ l₂ : List (Option PlayerId × List Attempt)) :
    collectVillain (l₁ ++ l₂) = collectVillain l₁ ++ collectVillain l₂ := by
  unfold collectVillain
  simp

theorem collectVillain_eq_nil (ka : List (Option PlayerId × List Attempt))
    (h : ∀ kl ∈ ka, ∀ att ∈ kl.2, isVillainAtt att = false) :
    collectVillain ka = [] := by
  unfold collectVillain
  induction ka with
  | nil => rfl
  | cons e rest ih =>
    simp only [List.map_cons, List.flatten_cons]
    rw [List.filterMap_eq_nil.mpr, ih, List.nil_append]
    · intro kl hkl
      exact h kl (List.mem_cons_of_mem _ hkl)
    · intro att hatt
      have := h e (List.mem_cons_self _ _) att hatt
      cases att with
      | witchAtt p => rfl
      | villainAtt vs => simp [isVillainAtt] at this

theorem filterMap_villain_nil (k : Option PlayerId) (l : List Attempt)
    (h : ∀ att ∈ l, isVillainAtt att = false) :
    l.filterMap (fun att => match att with
      | Attempt.villainAtt vs => some (k, vs)
      | Attempt.witchAtt _ => none) = [] :=
  List.filterMap_eq_nil.mpr (fun att hatt => by
    cases att with
    | witchAtt p => rfl
    | villainAtt vs => exact absurd (h _ hatt) (by simp [isVillainAtt]))

theorem collectVillain_appendAttempt :
    ∀ (ka : List (Option PlayerId × List Attempt)) (t : Option PlayerId) (vs : List PlayerId),
    (ka.map Prod.fst).Nodup →
    (∀ kl ∈ ka, ∀ att ∈ kl.2, isVillainAtt att = false) →
    collectVillain (appendAttempt ka t (.villainAtt vs)) = [(t, vs)] := by
  intro ka
  induction ka with
  | nil =>
    intro t vs _ _
    simp [appendAttempt, pLookup, collectVillain]
  | cons e rest ih =>
    intro t vs hnd h
    obtain ⟨k₀, v₀⟩ := e
    by_cases he : k₀ = t
    · subst he
      have hs : (pLookup ((k₀, v₀) :: rest) k₀).isSome := by simp [pLookup]
      unfold appendAttempt
      rw [if_pos hs, pUpdate_cons_hit]
      have hnm : k₀ ∉ rest.map Prod.fst := by
        simp at hnd
        intro hmem
        obtain ⟨q, hq, hq1⟩ := List.mem_map.mp hmem
        have h' : (k₀, q.2) ∈ rest := by
          rw [← hq1]
          simpa using hq
        exact hnd.1 q.2 h'
      rw [pUpdate_of_not_mem _ _ _ hnm]
      show collectVillain ((k₀, v₀ ++ [.villainAtt vs]) :: rest) = [(k₀, vs)]
      have htail : collectVillain rest = [] :=
        collectVillain_eq_nil rest (fun kl hkl => h kl (List.mem_cons_of_mem _ hkl))
      unfold collectVillain at htail ⊢
      simp only [List.map_cons, List.flatten_cons, List.filterMap_append]
      rw [filterMap_villain_nil k₀ v₀
        (fun att hatt => h (k₀, v₀) (List.mem_cons_self _ _) att hatt), htail]
      simp
    · have hplk : pLookup ((k₀, v₀) :: rest) t = pLookup rest t := by
        simp [pLookup, he]
      have hhead : v₀.filterMap (fun att => match att with
          | Attempt.villainAtt vs' => some (k₀, vs')
          | Attempt.witchAtt _ => none) = [] :=
        filterMap_villain_nil k₀ v₀
          (fun att hatt => h (k₀, v₀) (List.mem_cons_self _ _) att hatt)
      have hndr : (rest.map Prod.fst).Nodup := by
        simp at hnd
        exact hnd.2
      have hr : ∀ kl ∈ rest, ∀ att ∈ kl.2, isVillainAtt att = false :=
        fun kl hkl => h kl (List.mem_cons_of_mem _ hkl)
      by_cases hs : (pLookup rest t).isSome
      · unfold appendAttempt
        rw [hplk, if_pos hs, pUpdate_cons_miss _ _ _ _ _ he]
        have hrw : pUpdate rest t (fun l => l ++ [Attempt.villainAtt vs])
            = appendAttempt rest t (.villainAtt vs) := by
          unfold appendAttempt
          rw [if_pos hs]
        show collectVillain ((k₀, v₀) :: pUpdate rest t (fun l => l ++ [Attempt.villainAtt vs]))
          = [(t, vs)]
        unfold collectVillain
        simp only [List.map_cons, List.flatten_cons]
        rw [hhead, hrw]
        have := ih t vs hndr hr
        unfold collectVillain at this
        rw [this]
        simp
      · unfold appendAttempt
        rw [hplk, if_neg hs]
        have hrw : rest ++ [(t, [Attempt.villainAtt vs])]
            = appendAttempt rest t (.villainAtt vs) := by
          unfold appendAttempt
          rw [if_neg hs]
        show collectVillain ((k₀, v₀) :: (rest ++ [(t, [Attempt.villainAtt vs])])) = [(t, vs)]
        unfold collectVillain
        simp only [List.map_cons, List.flatten_cons]
        rw [hhead, hrw]
        have := ih t vs hndr hr
        unfold collectVillain at this
        rw [this]
        simp

theorem gatherStep_fst_noVillain (acc : List (Option PlayerId × List Attempt) × Game)
    (e : PlayerId × NightAction)
    (h : ∀ kl ∈ acc.1, ∀ att ∈ kl.2, isVillainAtt att = false) :
    ∀ kl ∈ (gatherStep acc e).1, ∀ att ∈ kl.2, isVillainAtt att = false := by
  unfold gatherStep
  repeat' split
  all_goals first
  | exact h
  | exact noVillain_appendAttempt_witch _ _ _ h

theorem gatherFold_fst_noVillain :
    ∀ (q : List (PlayerId × NightAction)) (acc : List (Option PlayerId × List Attempt) × Game),
    (∀ kl ∈ acc.1, ∀ att ∈ kl.2, isVillainAtt att = false) →
    ∀ kl ∈ (q.foldl gatherStep acc).1, ∀ att ∈ kl.2, isVillainAtt att = false := by
  intro q
  induction q with
  | nil => intro acc h; exact h
  | cons e rest ih =>
    intro acc h
    rw [List.foldl_cons]
    exact ih _ (gatherStep_fst_noVillain acc e h)

theorem gatherStep_fst_keys_nodup (acc : List (Option PlayerId × List Attempt) × Game)
    (e : PlayerId × NightAction) (h : (acc.1.map Prod.fst).Nodup) :
    (((gatherStep acc e).1).map Prod.fst).Nodup := by
  unfold gatherStep
  repeat' split
  all_goals first
  | exact h
  | exact appendAttempt_keys_nodup _ _ _ h

theorem gatherFold_fst_keys_nodup :
    ∀ (q : List (PlayerId × NightAction)) (acc : List (Option PlayerId × List Attempt) × Game),
    (acc.1.map Prod.fst).Nodup → (((q.foldl gatherStep acc).1).map Prod.fst).Nodup := by
  intro q
  induction q with
  | nil => intro acc h; exact h
  | cons e rest ih =>
    intro acc h
    rw [List.foldl_cons]
    exact ih _ (gatherStep_fst_keys_nodup acc e h)

theorem gatherStep_attempts_mono (acc : List (Option PlayerId × List Attempt) × Game)
    (e : PlayerId × NightAction) (k : Option PlayerId) (att : Attempt)
    (h : att ∈ attemptsAt acc.1 k) : att ∈ attemptsAt (gatherStep acc e).1 k := by
  unfold gatherStep
  repeat' split
  all_goals first
  | exact h
  | exact attemptsAt_appendAttempt_mono _ _ _ _ _ h

theorem gatherFold_attempts_mono :
    ∀ (q : List (PlayerId × NightAction)) (acc : List (Option PlayerId × List Attempt) × Game)
    (k : Option PlayerId) (att : Attempt),
    att ∈ attemptsAt acc.1 k → att ∈ attemptsAt (q.foldl gatherStep acc).1 k := by
  intro q
  induction q with
  | nil => intro acc k att h; exact h
  | cons e rest ih =>
    intro acc k att h
    rw [List.foldl_cons]
    exact ih _ _ _ (gatherStep_attempts_mono acc e k att h)

theorem gatherStep_witch_records (acc : List (Option PlayerId × List Attempt) × Game)
    (e : PlayerId × NightAction) (pst : PlayerState)
    (hst : acc.2.getPlayerStateById e.1 = some pst) (hc : pst.is_corrupted = false)
    (hw : e.2.act = ActKind.witchKill) :
    (gatherStep acc e).1 = appendAttempt acc.1 e.2.target (.witchAtt e.1) := by
  unfold gatherStep
  rw [hst]
  simp only [hc, Bool.false_eq_true, if_false, hw]

theorem maxFold_spec :
    ∀ (l : List (Option PlayerId × Nat)) (e₀ : Option PlayerId × Nat),
    (l.foldl (fun best p => if p.2 > best.2 then p else best) e₀ = e₀
      ∨ l.foldl (fun best p => if p.2 > best.2 then p else best) e₀ ∈ l)
    ∧ e₀.2 ≤ (l.foldl (fun best p => if p.2 > best.2 then p else best) e₀).2
    ∧ ∀ p ∈ l, p.2 ≤ (l.foldl (fun best p => if p.2 > best.2 then p else best) e₀).2 := by
  intro l
  induction l with
  | nil => intro e₀; exact ⟨Or.inl rfl, le_refl _, by simp⟩
  | cons x xs ih =>
    intro e₀
    simp only [List.foldl_cons]
    obtain ⟨hmem, hle, hall⟩ := ih (if x.2 > e₀.2 then x else e₀)
    have h1 : e₀.2 ≤ (if x.2 > e₀.2 then x else e₀).2 := by split <;> omega
    have h2 : x.2 ≤ (if x.2 > e₀.2 then x else e₀).2 := by split <;> omega
    refine ⟨?_, le_trans h1 hle, ?_⟩
    · rcases hmem with hm | hm
      · rw [hm]
        by_cases hx : x.2 > e₀.2
        · rw [if_pos hx]; exact Or.inr (List.mem_cons_self _ _)
        · rw [if_neg hx]; exact Or.inl rfl
      · exact Or.inr (List.mem_cons_of_mem _ hm)
    · intro p hp
      rcases List.mem_cons.mp hp with hp | hp
      · subst hp
        exact le_trans h2 hle
      · exact hall p hp

theorem maxEntry_spec (l : List (Option PlayerId × Nat)) (e : Option PlayerId × Nat)
    (h : maxEntry l = some e) : e ∈ l ∧ ∀ p ∈ l, p.2 ≤ e.2 := by
  cases l with
  | nil => simp [maxEntry] at h
  | cons x xs =>
    unfold maxEntry at h
    simp only [Option.some.injEq] at h
    obtain ⟨hmem, hle, hall⟩ := maxFold_spec xs x
    subst h
    constructor
    · rcases hmem with hm | hm
      · rw [hm]; exact List.mem_cons_self _ _
      · exact List.mem_cons_of_mem _ hm
    · intro p hp
      rcases List.mem_cons.mp hp with hp | hp
      · subst hp; exact hle
      · exact hall p hp

theorem villainVotes_fold_sum (g : Game) (t : Option PlayerId) :
    ∀ (q : List (PlayerId × NightAction)) (acc : List (Option PlayerId × Nat)),
    lookupCount (q.foldl (villainVoteStep g) acc) t
      = lookupCount acc t + (q.map (villainVoteContrib g t)).sum := by
  intro q
  induction q with
  | nil => intro acc; simp
  | cons e rest ih =>
    intro acc
    simp only [List.foldl_cons, List.map_cons, List.sum_cons]
    rw [ih]
    unfold villainVoteStep villainVoteContrib
    cases hst : g.getPlayerStateById e.1 with
    | none => simp
    | some pst =>
      by_cases hc : pst.is_corrupted
      · simp [hc]
      · simp only [hc, Bool.false_eq_true, if_false]
        cases hact : e.2.act <;>
          first
          | (rw [lookupCount_bump]
             by_cases htg : e.2.target = t <;> simp [htg] <;> omega)
          | simp

/-- C8: a possession by a present, living, non-corrupted actor anywhere in
the night queue — regardless of its position relative to the villain votes,
so in particular after them in priority order — leaves no villain-aggregate
attempt in the gathered kill map; absent such suppression, each target's
weighted villain count is the sum of the stored roles' weights over its
votes (an Alpha assassin vote counts 2 by villainWeight, every other 1),
the first target holding the maximal weighted count receives the single
aggregated villain attempt with the recorded voter list, and every witch
kill by a present, non-corrupted actor is gathered as its own separate
attempt on its own target. -/
theorem possession_suppression_and_villain_aggregate (g : Game)
    (q : List (PlayerId × NightAction)) :
    (∀ pid a st, (pid, a) ∈ q → a.act = ActKind.possess →
        g.getPlayerStateById pid = some st → st.is_alive = true →
        st.is_corrupted = false →
        collectVillain (gatherKillAttempts (resolveUniqueActions g q) q).1 = [])
    ∧ (∀ t, lookupCount (gatherVillainVotes g q) t
          = (q.map (villainVoteContrib g t)).sum)
    ∧ (g.skip_villain_kill = false → gatherVillainVotes g q ≠ [] →
        ∃ e, maxEntry (gatherVillainVotes g q) = some e
          ∧ e ∈ gatherVillainVotes g q
          ∧ (∀ p ∈ gatherVillainVotes g q, p.2 ≤ e.2)
          ∧ collectVillain (gatherKillAttempts g q).1
              = [(e.1, (g.night_actions.filter (fun p =>
                  decide (p.2.act = ActKind.villainVote)
                    && decide (p.2.target = e.1))).map Prod.fst)])
    ∧ (∀ pid a st, (pid, a) ∈ q → a.act = ActKind.witchKill →
        g.getPlayerStateById pid = some st → st.is_corrupted = false →
        Attempt.witchAtt pid ∈ attemptsAt (gatherKillAttempts g q).1 a.target) := by
  refine ⟨?_, ?_, ?_, ?_⟩
  · intro pid a st hmem hposs hst _ hc
    obtain ⟨l₁, l₂, hq⟩ := List.append_of_mem hmem
    have hskip : (resolveUniqueActions g q).skip_villain_kill = true := by
      unfold resolveUniqueActions
      rw [hq, List.foldl_append, List.foldl_cons]
      apply uniqueFold_skip_mono
      apply uniqueStep_possess_skip _ _ hposs
      rw [uniqueFold_lookup_corr, hst]
      simp [hc]
    unfold gatherKillAttempts
    dsimp only
    have hfs : ((q.foldl gatherStep
        (([] : List (Option PlayerId × List Attempt)),
          resolveUniqueActions g q)).2).skip_villain_kill = true := by
      rw [gatherFold_snd_skip]
      exact hskip
    rw [hfs]
    simp only [Bool.not_true, Bool.and_false, Bool.false_eq_true, if_false]
    exact collectVillain_eq_nil _
      (gatherFold_fst_noVillain q _ (by simp))
  · intro t
    unfold gatherVillainVotes
    rw [villainVotes_fold_sum]
    simp [lookupCount, pLookup]
  · intro hskip hvv
    cases hme : maxEntry (gatherVillainVotes g q) with
    | none =>
      cases hvx : gatherVillainVotes g q with
      | nil => exact absurd hvx hvv
      | cons x xs => rw [hvx] at hme; simp [maxEntry] at hme
    | some e =>
      obtain ⟨hmem, hall⟩ := maxEntry_spec _ _ hme
      refine ⟨e, rfl, hmem, hall, ?_⟩
      have hvne : (gatherVillainVotes g q).isEmpty = false := by
        cases hvx : gatherVillainVotes g q with
        | nil => exact absurd hvx hvv
        | cons x xs => rfl
      have hfs : ((q.foldl gatherStep
          (([] : List (Option PlayerId × List Attempt)), g)).2).skip_villain_kill
            = false := by
        rw [gatherFold_snd_skip]
        exact hskip
      have hna : ((q.foldl gatherStep
          (([] : List (Option PlayerId × List Attempt)), g)).2).night_actions
            = g.night_actions :=
        gatherFold_snd_nightActions q _
      have hmk : maxKeyFirst (gatherVillainVotes g q) = e.1 := by
        unfold maxKeyFirst
        rw [hme]
      unfold gatherKillAttempts
      dsimp only
      rw [hvne, hfs]
      simp only [Bool.not_false, Bool.and_self, if_true]
      rw [hmk, hna]
      exact collectVillain_appendAttempt _ _ _
        (gatherFold_fst_keys_nodup q _ (by simp))
        (gatherFold_fst_noVillain q _ (by simp))
  · intro pid a st hmem hw hst hc
    have hka : Attempt.witchAtt pid
        ∈ attemptsAt ((q.foldl gatherStep
            (([] : List (Option PlayerId × List Attempt)), g)).1) a.target := by
      obtain ⟨l₁, l₂, hq⟩ := List.append_of_mem hmem
      rw [hq, List.foldl_append, List.foldl_cons]
      apply gatherFold_attempts_mono
      have hpl : (l₁.foldl gatherStep
          (([] : List (Option PlayerId × List Attempt)), g)).2.players = g.players :=
        gatherFold_snd_players l₁ _
      have hst' : (l₁.foldl gatherStep
          (([] : List (Option PlayerId × List Attempt)), g)).2.getPlayerStateById pid
            = some st := by
        unfold Game.getPlayerStateById
        rw [hpl]
        exact hst
      rw [gatherStep_witch_records _ (pid, a) st hst' hc hw]
      exact attemptsAt_appendAttempt_self _ _ _
    unfold gatherKillAttempts
    dsimp only
    split
    · exact attemptsAt_appendAttempt_mono _ _ _ _ _ hka
    · exact hka

/-- C8 witness: in gC8a the possession by player 3 (queued after the
villain vote) suppresses the villain aggregate; in gC8b the villain vote
on player 2 becomes the single aggregated attempt with voter list [1],
while the witch kill by player 4 on player 1 is gathered separately. -/
theorem possession_suppression_witness :
    collectVillain (gatherKillAttempts (resolveUniqueActions gC8a qC8a) qC8a).1 = []
    ∧ collectVillain (gatherKillAttempts gC8b gC8b.night_actions).1 = [(some 2, [1])]
    ∧ Attempt.witchAtt 4 ∈ attemptsAt (gatherKillAttempts gC8b gC8b.night_actions).1 (some 1) := by
  refine ⟨?_, ?_, ?_⟩
  · exact (possession_suppression_and_villain_aggregate gC8a qC8a).1 3
      { act := .possess, target := some 2, role := .assassinoAlfa, priority := 90 }
      { display_name := "a2", role := .assassinoAlfa }
      (by decide) rfl (by decide) rfl rfl
  · obtain ⟨e, he1, he2, he3, he4⟩ :=
      (possession_suppression_and_villain_aggregate gC8b gC8b.night_actions).2.2.1
        rfl (by decide)
    have hme : maxEntry (gatherVillainVotes gC8b gC8b.night_actions)
        = some ((some 2 : Option PlayerId), 2) := by decide
    rw [hme] at he1
    simp only [Option.some.injEq] at he1
    rw [← he1] at he4
    rw [he4]
    decide
  · exact (possession_suppression_and_villain_aggregate gC8b gC8b.night_actions).2.2.2 4
      { act := .witchKill, target := some 1, role := .bruxo, priority := 25 }
      { display_name := "w", role := .bruxo }
      (by decide) rfl (by decide) rfl

theorem flags_imp_of_eq (a b : Game) (h : flagsOf b = flagsOf a) :
    (a.witch_potion_used = true → b.witch_potion_used = true)
    ∧ (a.angel_revive_used = true → b.angel_revive_used = true) := by
  unfold flagsOf at h
  simp only [Prod.mk.injEq] at h
  exact ⟨fun hw => by rw [h.1]; exact hw, fun ha => by rw [h.2]; exact ha⟩

theorem setPlayerIfExists_flags (g : Game) (o : Option PlayerId) (f : PlayerState → PlayerState) :
    flagsOf (setPlayerIfExists g o f) = flagsOf g := by
  unfold setPlayerIfExists Game.setPlayer
  repeat' split
  all_goals rfl

theorem confuseMarkPass_flags :
    ∀ (q : List (PlayerId × NightAction)) (g : Game),
    flagsOf (confuseMarkPass g q) = flagsOf g := by
  intro q
  induction q with
  | nil => intro g; rfl
  | cons e rest ih =>
    intro g
    unfold confuseMarkPass at ih ⊢
    rw [List.foldl_cons, ih]
    cases e.2.act
    all_goals simp [setPlayerIfExists_flags]

theorem corruptProtectPass_flags :
    ∀ (q : List (PlayerId × NightAction)) (g : Game),
    flagsOf (corruptProtectPass g q) = flagsOf g := by
  intro q
  induction q with
  | nil => intro g; rfl
  | cons e rest ih =>
    intro g
    unfold corruptProtectPass at ih ⊢
    rw [List.foldl_cons, ih]
    cases e.2.act
    all_goals (repeat' split)
    all_goals simp [setPlayerIfExists_flags]

theorem applyStatusEffects_flags (O : RandOracle) (g : Game)
    (q : List (PlayerId × NightAction)) :
    flagsOf (applyStatusEffects O g q).1 = flagsOf g := by
  unfold applyStatusEffects confusionRedirectPass
  dsimp only
  rw [corruptProtectPass_flags]
  show flagsOf { confuseMarkPass g q with
      night_actions := (confuseMarkPass g q).night_actions.map (redirectEntry O (confuseMarkPass g q)) }
    = flagsOf g
  rw [show flagsOf { confuseMarkPass g q with
      night_actions := (confuseMarkPass g q).night_actions.map (redirectEntry O (confuseMarkPass g q)) }
    = flagsOf (confuseMarkPass g q) from rfl]
  exact confuseMarkPass_flags q g

theorem uniqueStep_flags (g : Game) (e : PlayerId × NightAction) :
    flagsOf (uniqueStep g e) = flagsOf g := by
  unfold uniqueStep Game.setPlayer
  dsimp only
  repeat' split
  all_goals rfl

theorem resolveUniqueActions_flags :
    ∀ (q : List (PlayerId × NightAction)) (g : Game),
    flagsOf (resolveUniqueActions g q) = flagsOf g := by
  intro q
  induction q with
  | nil => intro g; rfl
  | cons e rest ih =>
    intro g
    unfold resolveUniqueActions at ih ⊢
    rw [List.foldl_cons, ih, uniqueStep_flags]

theorem gatherStep_snd_witch_mono (acc : List (Option PlayerId × List Attempt) × Game)
    (e : PlayerId × NightAction) (h : acc.2.witch_potion_used = true) :
    (gatherStep acc e).2.witch_potion_used = true := by
  unfold gatherStep
  repeat' split
  all_goals first | exact h | rfl

theorem gatherStep_snd_angel (acc : List (Option PlayerId × List Attempt) × Game)
    (e : PlayerId × NightAction) :
    (gatherStep acc e).2.angel_revive_used = acc.2.angel_revive_used := by
  unfold gatherStep
  repeat' split
  all_goals rfl

theorem gatherFold_snd_witch_mono :
    ∀ (q : List (PlayerId × NightAction)) (acc : List (Option PlayerId × List Attempt) × Game),
    acc.2.witch_potion_used = true →
    ((q.foldl gatherStep acc).2).witch_potion_used = true := by
  intro q
  induction q with
  | nil => intro acc h; exact h
  | cons e rest ih =>
    intro acc h
    rw [List.foldl_cons]
    exact ih _ (gatherStep_snd_witch_mono acc e h)

theorem gatherFold_snd_angel :
    ∀ (q : List (PlayerId × NightAction)) (acc : List (Option PlayerId × List Attempt) × Game),
    ((q.foldl gatherStep acc).2).angel_revive_used = acc.2.angel_revive_used := by
  intro q
  induction q with
  | nil => intro acc; rfl
  | cons e rest ih => intro acc; rw [List.foldl_cons, ih, gatherStep_snd_angel]

theorem gatherKillAttempts_snd (g : Game) (q : List (PlayerId × NightAction)) :
    (gatherKillAttempts g q).2
      = (q.foldl gatherStep (([] : List (Option PlayerId × List Attempt)), g)).2 := by
  unfold gatherKillAttempts
  dsimp only
  split <;> rfl

theorem deathStep_flags (acc : List DeathRec × Game) (e : Option PlayerId × List Attempt) :
    flagsOf (deathStep acc e).2 = flagsOf acc.2 := by
  unfold deathStep Game.setPlayer
  dsimp only
  repeat' split
  all_goals rfl

theorem resolveDeaths_flags :
    ∀ (ka : List (Option PlayerId × List Attempt)) (acc : List DeathRec × Game),
    flagsOf ((ka.foldl deathStep acc).2) = flagsOf acc.2 := by
  intro ka
  induction ka with
  | nil => intro acc; rfl
  | cons e rest ih => intro acc; rw [List.foldl_cons, ih, deathStep_flags]

theorem reviveApply_witch_mono (g : Game) (e : PlayerId × NightAction) (tid : PlayerId)
    (tst : PlayerState) (h : g.witch_potion_used = true) :
    (reviveApply g e tid tst).witch_potion_used = true := by
  unfold reviveApply resetFlagsForPlayer Game.setPlayer
  dsimp only
  repeat' split
  all_goals simp [h]

theorem reviveApply_angel_mono (g : Game) (e : PlayerId × NightAction) (tid : PlayerId)
    (tst : PlayerState) (h : g.angel_revive_used = true) :
    (reviveApply g e tid tst).angel_revive_used = true := by
  unfold reviveApply resetFlagsForPlayer Game.setPlayer
  dsimp only
  repeat' split
  all_goals simp [h]

theorem revivalStep_witch_mono (deaths : List DeathRec)
    (acc : Game × List (PlayerId × PlayerId)) (e : PlayerId × NightAction)
    (h : acc.1.witch_potion_used = true) :
    (revivalStep deaths acc e).1.witch_potion_used = true := by
  unfold revivalStep
  dsimp only
  repeat' split
  all_goals first | exact h | exact reviveApply_witch_mono _ _ _ _ h

theorem revivalStep_angel_mono (deaths : List DeathRec)
    (acc : Game × List (PlayerId × PlayerId)) (e : PlayerId × NightAction)
    (h : acc.1.angel_revive_used = true) :
    (revivalStep deaths acc e).1.angel_revive_used = true := by
  unfold revivalStep
  dsimp only
  repeat' split
  all_goals first | exact h | exact reviveApply_angel_mono _ _ _ _ h

theorem revivalFold_witch_mono :
    ∀ (q : List (PlayerId × NightAction)) (deaths : List DeathRec)
    (acc : Game × List (PlayerId × PlayerId)),
    acc.1.witch_potion_used = true →
    ((q.foldl (revivalStep deaths) acc).1).witch_potion_used = true := by
  intro q
  induction q with
  | nil => intro deaths acc h; exact h
  | cons e rest ih =>
    intro deaths acc h
    rw [List.foldl_cons]
    exact ih _ _ (revivalStep_witch_mono deaths acc e h)

theorem revivalFold_angel_mono :
    ∀ (q : List (PlayerId × NightAction)) (deaths : List DeathRec)
    (acc : Game × List (PlayerId × PlayerId)),
    acc.1.angel_revive_used = true →
    ((q.foldl (revivalStep deaths) acc).1).angel_revive_used = true := by
  intro q
  induction q with
  | nil => intro deaths acc h; exact h
  | cons e rest ih =>
    intro deaths acc h
    rw [List.foldl_cons]
    exact ih _ _ (revivalStep_angel_mono deaths acc e h)

theorem infectPlayer_flags (g : Game) (pid : PlayerId) :
    flagsOf (infectPlayer g pid) = flagsOf g := by
  unfold infectPlayer Game.setPlayer
  repeat' split
  all_goals rfl

theorem infectFold_flags (pz : PlayerId) :
    ∀ (l : List (PlayerId × NightAction)) (gx : Game),
    flagsOf (l.foldl (fun gx e => if e.2.target = some pz then infectPlayer gx e.1 else gx) gx)
      = flagsOf gx := by
  intro l
  induction l with
  | nil => intro gx; rfl
  | cons e rest ih =>
    intro gx
    rw [List.foldl_cons, ih]
    split
    · exact infectPlayer_flags gx e.1
    · rfl

theorem patientZeroSpread_flags (g : Game) : flagsOf (patientZeroSpread g) = flagsOf g := by
  unfold patientZeroSpread
  dsimp only
  repeat' split
  all_goals first
  | rfl
  | exact infectFold_flags _ _ _
  | (rw [infectPlayer_flags]; exact infectFold_flags _ _ _)

theorem afterExterminate_flags (g : Game) (pa : PlayerId × NightAction)
    (infected : List PlayerId) (out : InfoPlagueOut)
    (h : afterExterminate g pa infected = some out) : flagsOf out.g = flagsOf g := by
  unfold afterExterminate at h
  repeat' split at h
  all_goals first
  | exact Option.noConfusion h
  | (simp only [Option.some.injEq] at h
     rw [← h]
     exact patientZeroSpread_flags g)

theorem plaguePart_flags (g : Game) (q : List (PlayerId × NightAction))
    (out : InfoPlagueOut) (h : plaguePart g q = some out) : flagsOf out.g = flagsOf g := by
  unfold plaguePart at h
  dsimp only at h
  repeat' split at h
  all_goals first
  | exact Option.noConfusion h
  | (simp only [Option.some.injEq] at h
     rw [← h]
     exact patientZeroSpread_flags g)
  | (simp only [Option.some.injEq] at h
     rw [← h]
     rfl)
  | (have hx := afterExterminate_flags _ _ _ _ h
     exact hx)

theorem resolveInfoAndPlague_flags (g : Game) (q : List (PlayerId × NightAction))
    (out : InfoPlagueOut) (h : resolveInfoAndPlague g q = some out) :
    flagsOf out.g = flagsOf g := by
  unfold resolveInfoAndPlague at h
  repeat' split at h
  all_goals first
  | exact Option.noConfusion h
  | exact plaguePart_flags _ _ _ h

/-- C1 (amended): when resolve_night_actions returns, the night-action
queue is drained on every normal exit, but on the early game-over return
of the plague-extermination win the resolver returns before
clear_nightly_states and the queue survives; and along the actual stage
sequence of the call each one-shot flag it consumes (witch potion, angel
revival) only ever moves from unset to set — never back — so each is
toggled at most once per call. -/
theorem resolve_night_amended (O : RandOracle) (g : Game) (res : NightResults) (g' : Game)
    (h : resolveNightActions O g = some (res, g')) :
    (res.gameOver = false → g'.night_actions = [])
    ∧ (g.witch_potion_used = true → g'.witch_potion_used = true)
    ∧ (g.angel_revive_used = true → g'.angel_revive_used = true)
    ∧ ∃ gs, nightStageGames O g = some gs
        ∧ gs.head? = some g ∧ gs.getLast? = some g'
        ∧ List.Chain' (fun a b =>
            (a.witch_potion_used = true → b.witch_potion_used = true)
            ∧ (a.angel_revive_used = true → b.angel_revive_used = true)) gs := by
  unfold resolveNightActions at h
  dsimp only at h
  unfold nightStageGames
  dsimp only
  generalize hsq : applyStatusEffects O g (sortByPriority g.night_actions) = sq at h ⊢
  generalize hg2 : resolveUniqueActions sq.1 sq.2 = g₂ at h ⊢
  generalize hga : gatherKillAttempts g₂ sq.2 = ga at h ⊢
  generalize hdr : resolveDeaths ga.2 ga.1 = dr at h ⊢
  generalize hrv : resolveRevivals dr.2 sq.2 dr.1 = rv at h ⊢
  split at h
  · exact Option.noConfusion h
  next hbad =>
    rw [if_neg hbad]
    have c1 := flags_imp_of_eq g sq.1 (by rw [← hsq]; exact applyStatusEffects_flags O g _)
    have c2 := flags_imp_of_eq sq.1 g₂ (by rw [← hg2]; exact resolveUniqueActions_flags _ _)
    have c3 : ((g₂.witch_potion_used = true → ga.2.witch_potion_used = true)
        ∧ (g₂.angel_revive_used = true → ga.2.angel_revive_used = true)) := by
      constructor
      · intro hw
        rw [← hga, gatherKillAttempts_snd]
        exact gatherFold_snd_witch_mono _ _ hw
      · rw [← hga, gatherKillAttempts_snd, gatherFold_snd_angel]
        exact fun ha => ha
    have c4 : flagsOf dr.2 = flagsOf ga.2 := by
      rw [← hdr]
      unfold resolveDeaths
      exact resolveDeaths_flags _ _
    have c4i := flags_imp_of_eq ga.2 dr.2 c4
    have c5 : ((dr.2.witch_potion_used = true → rv.1.witch_potion_used = true)
        ∧ (dr.2.angel_revive_used = true → rv.1.angel_revive_used = true)) := by
      constructor
      · intro hw
        rw [← hrv]
        unfold resolveRevivals
        exact revivalFold_witch_mono _ _ _ hw
      · intro ha
        rw [← hrv]
        unfold resolveRevivals
        exact revivalFold_angel_mono _ _ _ ha
    cases hout : resolveInfoAndPlague rv.1 sq.2 with
    | none =>
      rw [hout] at h
      exact Option.noConfusion h
    | some out =>
      rw [hout] at h
      dsimp only at h
      have c6 := flags_imp_of_eq rv.1 out.g (resolveInfoAndPlague_flags _ _ _ hout)
      by_cases hgo : out.gameOver = true
      · rw [if_pos hgo] at h
        simp only [Option.some.injEq, Prod.mk.injEq] at h
        obtain ⟨hres, hg'⟩ := h
        subst hg'
        refine ⟨?_, ?_, ?_, ?_⟩
        · intro hf
          rw [← hres] at hf
          simp at hf
        · intro hw
          exact c6.1 (c5.1 (c4i.1 (c3.1 (c2.1 (c1.1 hw)))))
        · intro ha
          exact c6.2 (c5.2 (c4i.2 (c3.2 (c2.2 (c1.2 ha)))))
        · refine ⟨[g, sq.1, g₂, ga.2, dr.2, rv.1, out.g], ?_, rfl, rfl, ?_⟩
          · dsimp only
            rw [if_pos hgo]
          · simp only [List.chain'_cons]
            exact ⟨c1, c2, c3, c4i, c5, c6, by simp⟩
      · rw [if_neg hgo] at h
        simp only [Option.some.injEq, Prod.mk.injEq] at h
        obtain ⟨hres, hg'⟩ := h
        subst hg'
        have c7 := flags_imp_of_eq out.g (clearNightlyStates out.g) rfl
        refine ⟨?_, ?_, ?_, ?_⟩
        · intro hf
          rfl
        · intro hw
          exact c7.1 (c6.1 (c5.1 (c4i.1 (c3.1 (c2.1 (c1.1 hw))))))
        · intro ha
          exact c7.2 (c6.2 (c5.2 (c4i.2 (c3.2 (c2.2 (c1.2 ha))))))
        · refine ⟨[g, sq.1, g₂, ga.2, dr.2, rv.1, out.g, clearNightlyStates out.g],
            ?_, rfl, rfl, ?_⟩
          · dsimp only
            rw [if_neg hgo]
          · simp only [List.chain'_cons]
            exact ⟨c1, c2, c3, c4i, c5, c6, c7, by simp⟩

/-- C1 counterexample: at gC1x the plague extermination wins the match and
resolve_night_actions returns on the game-over path before
clear_nightly_states runs, leaving the one-entry night-action queue
populated on exit — against the claim that the queue is drained on every
path including the plague-win early return. -/
theorem resolve_night_queue_counterexample :
    (resolveNightActions oracleSimple gC1x).map
        (fun p => (p.1.gameOver, p.2.night_actions.length)) = some (true, 1) := by
  decide

/-- C1 witness: the repository's own bodyguard-sacrifice night (gC1w)
exits normally, and the amended theorem yields the drained queue there. -/
theorem resolve_night_amended_witness :
    ∃ res g', resolveNightActions oracleSimple gC1w = some (res, g')
      ∧ res.gameOver = false ∧ g'.night_actions = [] := by
  obtain ⟨res, g', h, hgo⟩ :
      ∃ res g', resolveNightActions oracleSimple gC1w = some (res, g')
        ∧ res.gameOver = false := ⟨_, _, rfl, by decide⟩
  exact ⟨res, g', h, hgo, (resolve_night_amended oracleSimple gC1w res g' h).1 hgo⟩

end CidadeDorme
